import Mathlib

/-! # libtcpsrv: a shallow embedding of `network/tcp/libtcpsrv/libtcpsrv.c`

The C functions `accept_client`, `worker`, `handle_signal`, `send_workers`,
`tcpsrv_run` and `tcpsrv_init` are transcribed as functions on an explicit state.

* Everything the operating system decides (the value returned by `accept`, whether
  an `epoll_ctl` succeeds, which signal was read, what a callback finds when it
  looks at the outside world) is an explicit input of the step that consumes it;
  the application's callbacks are functions of their arguments and of that input.
* Everything the code does to the outside world (closing a handle, writing an
  opcode on a control pipe, calling a callback, arming the alarm) is appended to a
  chronological log of effects; the registrations held by the workers' epoll
  instances are kept next to it.
* `libtcpsrv.h` is not part of the sources.  The flag and opcode constants it
  defines are parameters (`Consts`); the integer fields it declares are
  mathematical integers, so the statements below are about runs in which no
  counter leaves the range of its C type.  The one product the engine computes
  with these fields, `fd * t->p.sz` of the macro `fd_slot`, is computed in fixed
  width, in a C type that is a parameter as well (`slot_arith`).
-/

namespace TcpSrv

/-! ## Constants -/

/-- Readable-event bit of `<sys/epoll.h>`. -/
def EPOLLIN : Nat := 1

/-- Writable-event bit of `<sys/epoll.h>`. -/
def EPOLLOUT : Nat := 4

/-- Signal number of the alarm signal in `<signal.h>`. -/
def SIGALRM : Nat := 14

/-- The flag bits and control opcodes that `libtcpsrv.h` defines.  The header is
not among the sources, so their values are parameters of every definition. -/
structure Consts where
  TCPSRV_CAN_READ : Nat
  TCPSRV_CAN_WRITE : Nat
  TCPSRV_POLL_READ : Nat
  TCPSRV_POLL_WRITE : Nat
  TCPSRV_DO_CLOSE : Nat
  TCPSRV_DO_EXIT : Nat
  WORKER_PING : Nat
  WORKER_SHUTDOWN : Nat

/-- The six flag masks are non-empty and no two of them share a bit. -/
def Consts.distinct_bits (c : Consts) : Prop :=
  let l := [c.TCPSRV_CAN_READ, c.TCPSRV_CAN_WRITE, c.TCPSRV_POLL_READ,
            c.TCPSRV_POLL_WRITE, c.TCPSRV_DO_CLOSE, c.TCPSRV_DO_EXIT]
  (∀ a ∈ l, a ≠ 0) ∧ l.Pairwise (fun a b => a &&& b = 0)

instance (c : Consts) : Decidable c.distinct_bits := by
  unfold Consts.distinct_bits; infer_instance

/-- One concrete choice of the constants, used to run the definitions. -/
def consts0 : Consts :=
  { TCPSRV_CAN_READ := 1, TCPSRV_CAN_WRITE := 2, TCPSRV_POLL_READ := 4,
    TCPSRV_POLL_WRITE := 8, TCPSRV_DO_CLOSE := 16, TCPSRV_DO_EXIT := 32,
    WORKER_PING := 112, WORKER_SHUTDOWN := 115 }

/-! ## Data model -/

/-- An application callback of C type
`void (*)(void *slot, int fd, void *data, int *flags)`.  The arguments are: what the
call observes of the outside world through `data` and the handle (`io`, for the
built-in `drain` the result of its `read`), the byte offset of the slot record, the
handle, and the incoming `*flags`; the result is `*flags` when the call returns. -/
abbrev callback := Int → Int → Int → Nat → Nat

/-- The C integer type in which the macro `fd_slot` computes `fd * t->p.sz`.  The
handle `fd` is an `int` (line 127, and `ev.data.fd` at line 285); the field `sz` is
declared in `libtcpsrv.h`, so its type is a parameter.  By the usual arithmetic
conversions the product is an `int` when `sz` is an `int` or of a narrower type
(`int32`), and has the type of `sz` otherwise: `unsigned` (`uint32`), or a 64-bit
signed or unsigned type such as `size_t` (`int64`, `uint64`). -/
inductive slot_arith where
  | int32
  | uint32
  | int64
  | uint64
deriving DecidableEq, Repr

/-- The value, in the type `a`, of a product whose mathematical value is `x`: `x`
modulo `2^32` or `2^64`, read in two's complement when the type is signed.  That is
what the compiled code computes; for a signed type ISO C leaves the overflowing
product undefined. -/
def slot_arith.wrap : slot_arith → Int → Int
  | slot_arith.int32, x => (x + 2147483648) % 4294967296 - 2147483648
  | slot_arith.uint32, x => x % 4294967296
  | slot_arith.int64, x => (x + 9223372036854775808) % 18446744073709551616
      - 9223372036854775808
  | slot_arith.uint64, x => x % 18446744073709551616

/-- The largest value of the type: `INT_MAX`, `UINT_MAX`, and their 64-bit
counterparts. -/
def slot_arith.max_value : slot_arith → Int
  | slot_arith.int32 => 2147483647
  | slot_arith.uint32 => 4294967295
  | slot_arith.int64 => 9223372036854775807
  | slot_arith.uint64 => 18446744073709551615

/-- The configuration `tcpsrv_init_t` (fields the engine reads).  `upon_close`,
`slot_init` and `slot_fini` return nothing, so only whether the pointer is non-null
is kept; their calls appear in the effect log.  `sz` is a size, not negative;
`sz_type` is not a field of the C structure but what the model keeps of the
declaration of `sz`: the type of the product in `fd_slot`. -/
structure tcpsrv_init_t where
  verbose : Int
  nthread : Int
  maxfd : Int
  sz : Nat
  sz_type : slot_arith
  on_accept : Option callback
  on_data : Option callback
  upon_close : Bool
  slot_init : Bool
  slot_fini : Bool

/-- The per-worker context `tcpsrv_thread_t`. -/
structure tcpsrv_thread_t where
  thread_idx : Int
  pipe_fd0 : Int
  pipe_fd1 : Int
  epoll_fd : Int
deriving DecidableEq, Repr

/-- An epoll instance of the server: the main thread's (`t->epoll_fd`) or the one
owned by the worker of index `n` (`t->tc[n].epoll_fd`). -/
inductive Mux where
  | main
  | worker (n : Int)
deriving DecidableEq, Repr

/-- What the code does to the outside world.  A worker's control pipe is named by
the index `n` of the worker (`t->tc[n].pipe_fd[1]`). -/
inductive Effect where
  /-- Call `close(fd)` on a connection handle. -/
  | close (fd : Int)
  /-- Call `t->p.on_accept(slot, fd, data, &flags)`, with the incoming flags. -/
  | on_accept (slot fd : Int) (flags : Nat)
  /-- Call `t->p.on_data(slot, fd, data, &flags)`, with the incoming flags. -/
  | on_data (slot fd : Int) (flags : Nat)
  /-- Call `t->p.upon_close(slot, fd, data)`. -/
  | upon_close (slot fd : Int)
  /-- Call `epoll_ctl(ep, EPOLL_CTL_ADD, fd, events)`, and whether it succeeded. -/
  | epoll_add (ep : Mux) (events : Nat) (fd : Int) (ok : Bool)
  /-- Call `epoll_ctl(ep, EPOLL_CTL_MOD, fd, events)`, and whether it succeeded. -/
  | epoll_mod (ep : Mux) (events : Nat) (fd : Int) (ok : Bool)
  /-- Call `write(t->tc[n].pipe_fd[1], &op, 1)`. -/
  | pipe_write (n : Int) (op : Nat)
  /-- Call `alarm(secs)`. -/
  | alarm (secs : Nat)
  /-- Call `pthread_create(&t->th[n], NULL, worker, &t->tc[n])`. -/
  | thread_create (n : Int)
  /-- Call `p->slot_init(t->slots, nslots, p->data)`. -/
  | slot_init (nslots : Int)
deriving DecidableEq, Repr

/-- The server object `tcpsrv_t` together with the part of the outside world the
engine acts on: `epoll ep fd` is the interest set registered for `fd` on the epoll
instance `ep` (`none` when `fd` is not registered there), `log` the effects
so far, oldest first.  `slots` is the byte length of the slot table. -/
structure tcpsrv_t where
  p : tcpsrv_init_t
  fd : Int
  signal_fd : Int
  epoll_fd : Int
  ticks : Int
  shutdown : Int
  num_accepts : Int
  num_overloads : Int
  slots : Int
  tc : List tcpsrv_thread_t
  epoll : Mux → Int → Option Nat
  log : List Effect

/-- Record an effect. -/
def tcpsrv_t.emit (t : tcpsrv_t) (e : Effect) : tcpsrv_t :=
  { t with log := t.log ++ [e] }

/-- Closing a connection handle, `close(fd)`: the handle leaves every epoll instance. -/
def close_fd (t : tcpsrv_t) (fd : Int) : tcpsrv_t :=
  { t with epoll := fun n f => if f = fd then none else t.epoll n f,
           log := t.log ++ [Effect.close fd] }

/-- The macro `#define fd_slot(t,fd) (t->slots + (fd * t->p.sz))`, as a byte offset
from the start `t->slots` of the slot table: the product is computed in the C type
`t.p.sz_type`, with nothing in the macro or around its two uses (lines 152, 285)
that keeps it from overflowing, and the result is added to the pointer. -/
def fd_slot (t : tcpsrv_t) (fd : Int) : Int := t.p.sz_type.wrap (fd * t.p.sz)

/-- The function `add_epoll(epoll_fd, events, fd)`: `ok` is whether `epoll_ctl`
succeeds; the result is the new state and the return code (0 or -1). -/
def add_epoll (t : tcpsrv_t) (n : Mux) (events : Nat) (fd : Int) (ok : Bool) :
    tcpsrv_t × Int :=
  if ok then
    ({ t with epoll := fun m f => if m = n ∧ f = fd then some events else t.epoll m f,
              log := t.log ++ [Effect.epoll_add n events fd true] }, 0)
  else
    (t.emit (Effect.epoll_add n events fd false), -1)

/-- The function `mod_epoll(epoll_fd, events, fd)`, like `add_epoll`. -/
def mod_epoll (t : tcpsrv_t) (n : Mux) (events : Nat) (fd : Int) (ok : Bool) :
    tcpsrv_t × Int :=
  if ok then
    ({ t with epoll := fun m f => if m = n ∧ f = fd then some events else t.epoll m f,
              log := t.log ++ [Effect.epoll_mod n events fd true] }, 0)
  else
    (t.emit (Effect.epoll_mod n events fd false), -1)

/-- The writes of `send_workers`, one per worker index `0 .. nthread-1`. -/
def broadcast (nthread : Int) (op : Nat) : List Effect :=
  (List.range nthread.toNat).map (fun n : Nat => Effect.pipe_write (Int.ofNat n) op)

/-- The function `send_workers(t, op)`: the loop `for (n = 0; n < t->p.nthread; n++) write(...)`. -/
def send_workers (t : tcpsrv_t) (op : Nat) : tcpsrv_t :=
  (List.range t.p.nthread.toNat).foldl
    (fun s (n : Nat) => s.emit (Effect.pipe_write (Int.ofNat n) op)) t

/-- The function `periodic(t)`. -/
def periodic (c : Consts) (t : tcpsrv_t) : tcpsrv_t :=
  send_workers t c.WORKER_PING

/-- The built-in `drain` callback: `io` is the result of its `read`. -/
def drain (c : Consts) : callback :=
  fun io _slot _fd flags => if io = 0 then flags ||| c.TCPSRV_DO_CLOSE else flags

/-! ## `accept_client` -/

/-- What the outside world contributes to one call of `accept_client`: the value
returned by `accept` (`none` for -1), what `on_accept` observes, and whether the
`epoll_ctl` of the handoff succeeds. -/
structure accept_in where
  fd : Option Nat
  io : Int
  epoll_ok : Bool

/-- The interest set computed from the poll bits of `flags`; the same three lines
stand in `accept_client` (167-169) and in `worker` (301-303):
`events = 0; if (flags & TCPSRV_POLL_READ) events |= EPOLLIN;
if (flags & TCPSRV_POLL_WRITE) events |= EPOLLOUT;`. -/
def poll_events (c : Consts) (flags : Nat) : Nat :=
  let events := 0
  let events := if flags &&& c.TCPSRV_POLL_READ ≠ 0 then events ||| EPOLLIN else events
  let events := if flags &&& c.TCPSRV_POLL_WRITE ≠ 0 then events ||| EPOLLOUT else events
  events

/-- Lines 166-174 of `accept_client`: hand the handle to the worker. -/
def handoff (c : Consts) (t : tcpsrv_t) (thread_idx : Int) (flags : Nat) (fd : Int)
    (ok : Bool) : tcpsrv_t :=
  let events := poll_events c flags
  let r := add_epoll t (Mux.worker thread_idx) events fd ok
  if r.2 = -1 then
    { close_fd r.1 fd with shutdown := 1 }
  else r.1

/-- The function `accept_client(t)`.  `Int.tmod` is the remainder of C (`fd %
t->p.nthread`, which C leaves undefined for `nthread = 0`). -/
def accept_client (c : Consts) (t : tcpsrv_t) (i : accept_in) : tcpsrv_t :=
  match i.fd with
  | none => t
  | some nfd =>
    let fd : Int := nfd
    if fd > t.p.maxfd then
      close_fd { t with num_overloads := t.num_overloads + 1 } fd
    else
      let t := { t with num_accepts := t.num_accepts + 1 }
      let thread_idx := Int.tmod fd t.p.nthread
      let slot := fd_slot t fd
      let flags := c.TCPSRV_POLL_READ
      match t.p.on_accept with
      | some cb =>
        let t := t.emit (Effect.on_accept slot fd flags)
        let flags := cb i.io slot fd flags
        let t := if flags &&& c.TCPSRV_DO_EXIT ≠ 0 then { t with shutdown := 1 } else t
        let t :=
          if flags &&& c.TCPSRV_DO_CLOSE ≠ 0 then
            close_fd (if t.p.upon_close then t.emit (Effect.upon_close slot fd) else t) fd
          else t
        if flags &&& (c.TCPSRV_DO_EXIT ||| c.TCPSRV_DO_CLOSE) ≠ 0 then t
        else handoff c t thread_idx flags fd i.epoll_ok
      | none => handoff c t thread_idx flags fd i.epoll_ok

/-- The body of `accept_client` for a handle within range when an `on_accept`
callback is supplied, as a function of the flags `F` the callback leaves behind
(lines 150-174 with the call at line 157 replaced by its outcome). -/
def accept_cb_body (c : Consts) (t : tcpsrv_t) (fd : Int) (ok : Bool) (F : Nat) :
    tcpsrv_t :=
  let slot := fd_slot t fd
  let t1 : tcpsrv_t :=
    { t with num_accepts := t.num_accepts + 1,
             log := t.log ++ [Effect.on_accept slot fd c.TCPSRV_POLL_READ] }
  let t2 : tcpsrv_t := if F &&& c.TCPSRV_DO_EXIT ≠ 0 then { t1 with shutdown := 1 } else t1
  let t3 : tcpsrv_t :=
    if F &&& c.TCPSRV_DO_CLOSE ≠ 0 then
      close_fd (if t.p.upon_close then t2.emit (Effect.upon_close slot fd) else t2) fd
    else t2
  if F &&& (c.TCPSRV_DO_EXIT ||| c.TCPSRV_DO_CLOSE) ≠ 0 then t3
  else handoff c t3 (Int.tmod fd t.p.nthread) F fd ok

/-! ## `worker` -/

/-- One event delivered to a worker by `epoll_wait`, with what the outside world
contributes while it is handled: `rd` is the opcode read from the control pipe
(`none` when the `read` does not return exactly one byte), `io` what `on_data`
observes, `epoll_ok` whether the `epoll_ctl` of `mod_epoll` succeeds. -/
structure worker_ev where
  fd : Int
  events : Nat
  rd : Option Nat
  io : Int
  epoll_ok : Bool

/-- Lines 286-288 of `worker`: the capability flags handed to `on_data`,
`flags = 0; if (ev.events & EPOLLIN) flags |= TCPSRV_CAN_READ;
if (ev.events & EPOLLOUT) flags |= TCPSRV_CAN_WRITE;`. -/
def can_flags (c : Consts) (events : Nat) : Nat :=
  let flags := 0
  let flags := if events &&& EPOLLIN ≠ 0 then flags ||| c.TCPSRV_CAN_READ else flags
  let flags := if events &&& EPOLLOUT ≠ 0 then flags ||| c.TCPSRV_CAN_WRITE else flags
  flags

/-- One iteration of the event loop of `worker` (lines 268-306) for the worker
context `tc`.  The Boolean is `true` when the loop goes on (`continue`, or the end
of the body) and `false` on `goto done`.  `tcpsrv_init` has replaced a null
`on_data` by `drain`. -/
def worker_step (c : Consts) (t : tcpsrv_t) (tc : tcpsrv_thread_t) (e : worker_ev) :
    tcpsrv_t × Bool :=
  if e.fd = tc.pipe_fd0 then
    match e.rd with
    | none => (t, false)
    | some op => if op = c.WORKER_SHUTDOWN then (t, false) else (t, true)
  else
    let slot := fd_slot t e.fd
    let flags := can_flags c e.events
    let on_data := t.p.on_data.getD (drain c)
    let t := t.emit (Effect.on_data slot e.fd flags)
    let flags := on_data e.io slot e.fd flags
    let t := if flags &&& c.TCPSRV_DO_EXIT ≠ 0 then { t with shutdown := 1 } else t
    let t :=
      if flags &&& c.TCPSRV_DO_CLOSE ≠ 0 then
        close_fd (if t.p.upon_close then t.emit (Effect.upon_close slot e.fd) else t) e.fd
      else t
    if flags &&& (c.TCPSRV_DO_EXIT ||| c.TCPSRV_DO_CLOSE) ≠ 0 then (t, true)
    else if flags &&& (c.TCPSRV_POLL_READ ||| c.TCPSRV_POLL_WRITE) ≠ 0 then
      let events := poll_events c flags
      let r := mod_epoll t (Mux.worker tc.thread_idx) events e.fd e.epoll_ok
      if r.2 ≠ 0 then (r.1, false) else (r.1, true)
    else (t, true)

/-- The loop body of `worker` on a connection event (lines 291-305), as a function
of the flags `F` that the call of `on_data` at line 289 leaves behind. -/
def worker_conn_body (c : Consts) (t : tcpsrv_t) (tc : tcpsrv_thread_t) (e : worker_ev)
    (F : Nat) : tcpsrv_t × Bool :=
  let slot := fd_slot t e.fd
  let t1 : tcpsrv_t := t.emit (Effect.on_data slot e.fd (can_flags c e.events))
  let t2 : tcpsrv_t := if F &&& c.TCPSRV_DO_EXIT ≠ 0 then { t1 with shutdown := 1 } else t1
  let t3 : tcpsrv_t :=
    if F &&& c.TCPSRV_DO_CLOSE ≠ 0 then
      close_fd (if t.p.upon_close then t2.emit (Effect.upon_close slot e.fd) else t2) e.fd
    else t2
  if F &&& (c.TCPSRV_DO_EXIT ||| c.TCPSRV_DO_CLOSE) ≠ 0 then (t3, true)
  else if F &&& (c.TCPSRV_POLL_READ ||| c.TCPSRV_POLL_WRITE) ≠ 0 then
    let r := mod_epoll t3 (Mux.worker tc.thread_idx) (poll_events c F) e.fd e.epoll_ok
    if r.2 ≠ 0 then (r.1, false) else (r.1, true)
  else (t3, true)

/-- The event loop of `worker`: `while (epoll_wait(...) > 0) { ... }` over the events
the worker receives; the list ends when `epoll_wait` stops returning an event. -/
def worker_loop (c : Consts) (t : tcpsrv_t) (tc : tcpsrv_thread_t) :
    List worker_ev → tcpsrv_t
  | [] => t
  | e :: es =>
    let r := worker_step c t tc e
    if r.2 then worker_loop c r.1 tc es else r.1

/-- The function `worker(data)`: register the control pipe, then run the loop. -/
def worker (c : Consts) (t : tcpsrv_t) (tc : tcpsrv_thread_t) (pipe_ok : Bool)
    (evs : List worker_ev) : tcpsrv_t :=
  let r := add_epoll t (Mux.worker tc.thread_idx) EPOLLIN tc.pipe_fd0 pipe_ok
  if r.2 ≠ 0 then r.1 else worker_loop c r.1 tc evs

/-! ## `handle_signal` and `tcpsrv_run` -/

/-- The outcome of `read(t->signal_fd, &info, sizeof(info))`: the signal number
`info.ssi_signo` when a full record was read, `none` otherwise. -/
structure signal_in where
  siginfo : Option Nat

/-- The function `handle_signal(t)`. -/
def handle_signal (c : Consts) (t : tcpsrv_t) (i : signal_in) : tcpsrv_t :=
  match i.siginfo with
  | none => { t with shutdown := 1 }
  | some signo =>
    if signo = SIGALRM then
      let t := { t with ticks := t.ticks + 1 }
      let t := if Int.tmod t.ticks 10 = 0 then periodic c t else t
      t.emit (Effect.alarm 1)
    else { t with shutdown := 1 }

/-- One event delivered to the main thread by `epoll_wait`: the handle it is for and
what the outside world contributes to the handler that runs.  The event is a
readable one: the assertion at line 356 holds. -/
structure main_ev where
  fd : Int
  acc : accept_in
  sig : signal_in

/-- The dispatch at lines 359-360 of `tcpsrv_run`. -/
def main_step (c : Consts) (t : tcpsrv_t) (e : main_ev) : tcpsrv_t :=
  if e.fd = t.fd then accept_client c t e.acc
  else if e.fd = t.signal_fd then handle_signal c t e.sig
  else t

/-- The main loop of `tcpsrv_run` (lines 354-367) over the events the main thread
receives; the list ends when `epoll_wait` stops returning an event.  The result is
the final state and the return code `rc`. -/
def run_loop (c : Consts) (t : tcpsrv_t) : List main_ev → tcpsrv_t × Int
  | [] => (t, -1)
  | e :: es =>
    let t1 := main_step c t e
    if t1.shutdown ≠ 0 then (send_workers t1 c.WORKER_SHUTDOWN, 0)
    else run_loop c t1 es

/-- What the outside world contributes to `tcpsrv_run`: the listening handle made by
`setup_listener` (`none` when it fails), whether the two registrations on the main
epoll instance succeed, and the events of the main loop. -/
structure run_in where
  listener : Option Int
  add_listener_ok : Bool
  add_signal_ok : Bool
  events : List main_ev

/-- Lines 342-353 of `tcpsrv_run`, everything before the main loop: the state and
`0` when the loop is entered, `-1` on `goto done`.  The worker threads started here
run concurrently and are not part of this function; whatever they did to the
shutdown flag before an iteration of the main loop is part of the state that
iteration starts from. -/
def run_setup (t : tcpsrv_t) (i : run_in) : tcpsrv_t × Int :=
  match i.listener with
  | none => (t, -1)
  | some lfd =>
    let t := { t with fd := lfd }
    let r := add_epoll t Mux.main EPOLLIN t.fd i.add_listener_ok
    if r.2 ≠ 0 then (r.1, -1)
    else
      let r := add_epoll r.1 Mux.main EPOLLIN r.1.signal_fd i.add_signal_ok
      if r.2 ≠ 0 then (r.1, -1)
      else
        let t := (List.range r.1.p.nthread.toNat).foldl
          (fun s (n : Nat) => s.emit (Effect.thread_create (Int.ofNat n))) r.1
        (t.emit (Effect.alarm 1), 0)

/-- The function `tcpsrv_run(t)`: the final state and the value returned. -/
def tcpsrv_run (c : Consts) (t : tcpsrv_t) (i : run_in) : tcpsrv_t × Int :=
  let r := run_setup t i
  if r.2 ≠ 0 then (r.1, -1) else run_loop c r.1 i.events

/-! ## `tcpsrv_init` -/

/-- A resource `tcpsrv_init` acquires: one of its four `calloc` blocks or an open
handle. -/
inductive Res where
  | mem_t
  | mem_slots
  | mem_th
  | mem_tc
  | handle (fd : Int)
deriving DecidableEq, Repr

/-- What the operating system answers to `tcpsrv_init`: whether each `calloc`
succeeds, the handle returned by `signalfd` and by the main `epoll_create` (`none`
for -1), and for the worker of index `n` the two handles made by `pipe` and the one
returned by `epoll_create` (`none` on failure). -/
structure init_env where
  calloc_t : Bool
  calloc_slots : Bool
  calloc_th : Bool
  signalfd : Option Nat
  epoll_create : Option Nat
  calloc_tc : Bool
  pipe : Nat → Option (Nat × Nat)
  epoll_create_n : Nat → Option Nat

/-- Every handle the operating system hands out to `tcpsrv_init` is positive. -/
def env_positive (env : init_env) : Prop :=
  (∀ fd, env.signalfd = some fd → 0 < fd) ∧
  (∀ fd, env.epoll_create = some fd → 0 < fd) ∧
  (∀ n r w, env.pipe n = some (r, w) → 0 < r ∧ 0 < w) ∧
  (∀ n e, env.epoll_create_n n = some e → 0 < e)

/-- The fields of the server object that `tcpsrv_init` fills in, as they stand at a
point of the function (`slots`, `th`: whether the pointer is non-null; `tc`: `none`
for a null pointer), with the resources held at that point and the callbacks run. -/
structure init_st where
  slots : Bool
  th : Bool
  signal_fd : Int
  epoll_fd : Int
  tc : Option (List tcpsrv_thread_t)
  held : List Res
  log : List Effect

/-- A worker context as `calloc` leaves it. -/
def zero_thread : tcpsrv_thread_t :=
  { thread_idx := 0, pipe_fd0 := 0, pipe_fd1 := 0, epoll_fd := 0 }

/-- Update `t->tc[n]`. -/
def init_st.set_tc (st : init_st) (n : Nat) (f : tcpsrv_thread_t → tcpsrv_thread_t) :
    init_st :=
  { st with tc := st.tc.map (fun l => l.modify f n) }

/-- The loop at lines 213-222, from index `n`, for `k` more workers.  The result is
the state and `rc` (0 when the loop ran to its end, -1 on `goto done`). -/
def init_workers (env : init_env) : Nat → Nat → init_st → init_st × Int
  | 0, _, st => (st, 0)
  | k + 1, n, st =>
    let st := st.set_tc n (fun w => { w with thread_idx := n })
    match env.pipe n with
    | none => (st, -1)
    | some (r, w) =>
      let st := st.set_tc n (fun x => { x with pipe_fd0 := r, pipe_fd1 := w })
      let st := { st with held := Res.handle w :: Res.handle r :: st.held }
      match env.epoll_create_n n with
      | none => (st.set_tc n (fun x => { x with epoll_fd := -1 }), -1)
      | some e =>
        let st := st.set_tc n (fun x => { x with epoll_fd := e })
        let st := { st with held := Res.handle e :: st.held }
        init_workers env k (n + 1) st

/-- Lines 186-224 of `tcpsrv_init`, after the server object was allocated: the state
at the label `done` and the value of `rc` there. -/
def init_body (p : tcpsrv_init_t) (env : init_env) (st : init_st) : init_st × Int :=
  if !env.calloc_slots then (st, -1)
  else
    let st := { st with slots := true, held := Res.mem_slots :: st.held }
    let st := if p.slot_init then
      { st with log := st.log ++ [Effect.slot_init (p.maxfd + 1)] } else st
    if !env.calloc_th then (st, -1)
    else
      let st := { st with th := true, held := Res.mem_th :: st.held }
      match env.signalfd with
      | none => ({ st with signal_fd := -1 }, -1)
      | some sfd =>
        let st := { st with signal_fd := sfd, held := Res.handle sfd :: st.held }
        match env.epoll_create with
        | none => ({ st with epoll_fd := -1 }, -1)
        | some ep =>
          let st := { st with epoll_fd := ep, held := Res.handle ep :: st.held }
          if !env.calloc_tc then (st, -1)
          else
            let st := { st with tc := some (List.replicate p.nthread.toNat zero_thread),
                                held := Res.mem_tc :: st.held }
            init_workers env p.nthread.toNat 0 st

/-- Release a resource (`free` or `close`). -/
def release (held : List Res) (r : Res) : List Res := held.erase r

/-- The body of the cleanup loop at lines 235-239 for one worker context. -/
def cleanup_thread (held : List Res) (w : tcpsrv_thread_t) : List Res :=
  let held := if w.pipe_fd0 > 0 then release held (Res.handle w.pipe_fd0) else held
  let held := if w.pipe_fd1 > 0 then release held (Res.handle w.pipe_fd1) else held
  if w.epoll_fd > 0 then release held (Res.handle w.epoll_fd) else held

/-- The handles the cleanup loop releases for one worker context: those of its three
handle fields that pass the test `> 0`. -/
def thread_res (w : tcpsrv_thread_t) : List Res :=
  (if w.pipe_fd0 > 0 then [Res.handle w.pipe_fd0] else [])
    ++ ((if w.pipe_fd1 > 0 then [Res.handle w.pipe_fd1] else [])
    ++ (if w.epoll_fd > 0 then [Res.handle w.epoll_fd] else []))

/-- What the unwinding releases in a state of `tcpsrv_init`, in the order in which
it does so: the blocks whose pointer is non-null and the handles that pass the test
`> 0`. -/
def owned (st : init_st) : List Res :=
  (if st.slots then [Res.mem_slots] else [])
    ++ ((if st.th then [Res.mem_th] else [])
    ++ ((if st.signal_fd > 0 then [Res.handle st.signal_fd] else [])
    ++ ((if st.epoll_fd > 0 then [Res.handle st.epoll_fd] else [])
    ++ ((match st.tc with
         | some l => l.flatMap thread_res ++ [Res.mem_tc]
         | none => [])
    ++ [Res.mem_t]))))

/-- The unwinding at lines 229-243 of `tcpsrv_init`: what is still held after it. -/
def init_cleanup (st : init_st) : List Res :=
  let held := st.held
  let held := if st.slots then release held Res.mem_slots else held
  let held := if st.th then release held Res.mem_th else held
  let held := if st.signal_fd > 0 then release held (Res.handle st.signal_fd) else held
  let held := if st.epoll_fd > 0 then release held (Res.handle st.epoll_fd) else held
  let held := match st.tc with
    | some l => release (l.foldl cleanup_thread held) Res.mem_tc
    | none => held
  release held Res.mem_t

/-- The result of `tcpsrv_init`: the server returned (`none` for a null pointer) and
the resources acquired by the call that are still held when it returns. -/
structure init_out where
  t : Option tcpsrv_t
  held : List Res

/-- The function `tcpsrv_init(p)`. -/
def tcpsrv_init (c : Consts) (p : tcpsrv_init_t) (env : init_env) : init_out :=
  if !env.calloc_t then { t := none, held := [] }
  else
    let st : init_st :=
      { slots := false, th := false, signal_fd := 0, epoll_fd := 0, tc := none,
        held := [Res.mem_t], log := [] }
    let r := init_body p env st
    if r.2 < 0 then { t := none, held := init_cleanup r.1 }
    else
      { t := some
          { p := { p with on_data := some (p.on_data.getD (drain c)) },
            fd := 0, signal_fd := r.1.signal_fd, epoll_fd := r.1.epoll_fd,
            ticks := 0, shutdown := 0, num_accepts := 0, num_overloads := 0,
            slots := (p.maxfd + 1) * p.sz, tc := r.1.tc.getD [],
            epoll := fun _ _ => none, log := r.1.log },
        held := r.1.held }

/-- Process `n` consecutive alarm signals, each read successfully. -/
def alarms (c : Consts) (t : tcpsrv_t) : Nat → tcpsrv_t
  | 0 => t
  | n + 1 => handle_signal c (alarms c t n) { siginfo := some SIGALRM }

/-- How many opcodes `op` were written to the control pipe of worker `n`. -/
def sent (log : List Effect) (n : Int) (op : Nat) : Nat :=
  log.count (Effect.pipe_write n op)

/-! ## The running server as a transition system -/

/-- What a step leaves alone (configuration, slot table, worker contexts) and how
the set of registered handles can grow: only by handles satisfying `P`. -/
def grows (t t' : tcpsrv_t) (P : Mux → Int → Prop) : Prop :=
  (t'.p = t.p ∧ t'.slots = t.slots ∧ t'.tc = t.tc) ∧
  ∀ ep f, (t'.epoll ep f).isSome → (t.epoll ep f).isSome ∨ P ep f

/-- A callback that leaves the same flags behind on every call. -/
def cb_const (flags : Nat) : callback := fun _ _ _ _ => flags

/-- Two workers, `maxfd = 1024`, 8-byte slots (`sz` an `int`), an `upon_close`
callback and no `on_accept` callback. -/
def cfg2 : tcpsrv_init_t :=
  { verbose := 0, nthread := 2, maxfd := 1024, sz := 8, sz_type := slot_arith.int32,
    on_accept := none,
    on_data := none, upon_close := true, slot_init := false, slot_fini := false }

/-- An idle server with the given configuration: nothing registered, nothing logged,
all counters zero. -/
def idle (p : tcpsrv_init_t) : tcpsrv_t :=
  { p := p, fd := 3, signal_fd := 4, epoll_fd := 5, ticks := 0, shutdown := 0,
    num_accepts := 0, num_overloads := 0, slots := (p.maxfd + 1) * p.sz, tc := [],
    epoll := fun _ _ => none, log := [] }

/-- The sample server after it accepted handle 9 with read interest, for an
application whose `on_data` always asks for write interest. -/
def serving : tcpsrv_t :=
  accept_client consts0 (idle { cfg2 with on_data := some (cb_const 8) })
    { fd := some 9, io := 0, epoll_ok := true }

/-- An operating system that grants every request of `tcpsrv_init`, handing out the
handles 3, 4, 5, ... in order. -/
def env_ok : init_env :=
  { calloc_t := true, calloc_slots := true, calloc_th := true, signalfd := some 3,
    epoll_create := some 4, calloc_tc := true,
    pipe := fun n => some (5 + 3 * n, 6 + 3 * n),
    epoll_create_n := fun n => some (7 + 3 * n) }

/-- An operating system for a process started with descriptor 0 closed: the handles
0, 1, 2, ... are handed out in order, and the `pipe` for worker 1 fails. -/
def env_stdin_closed : init_env :=
  { calloc_t := true, calloc_slots := true, calloc_th := true, signalfd := some 0,
    epoll_create := some 1, calloc_tc := true,
    pipe := fun n => if n = 0 then some (2, 3) else none,
    epoll_create_n := fun n => some (4 + 3 * n) }

/-- A run of `tcpsrv_run`: setup succeeds, then an alarm, a terminate signal
(number 15) and a connection attempt arrive, in this order. -/
def run_sample : run_in :=
  { listener := some 3, add_listener_ok := true, add_signal_ok := true,
    events := [{ fd := 4, acc := { fd := none, io := 0, epoll_ok := true },
                 sig := { siginfo := some SIGALRM } },
               { fd := 4, acc := { fd := none, io := 0, epoll_ok := true },
                 sig := { siginfo := some 15 } },
               { fd := 3, acc := { fd := some 7, io := 0, epoll_ok := true },
                 sig := { siginfo := none } }] }

/-- The context of worker 1 in the sample states. -/
def tc1 : tcpsrv_thread_t :=
  { thread_idx := 1, pipe_fd0 := 8, pipe_fd1 := 9, epoll_fd := 10 }

/-! # Lemmas -/

/-! ## Bit masks -/

theorem lor_eq_zero (a b : Nat) : a ||| b = 0 ↔ a = 0 ∧ b = 0 := by
  constructor
  · intro h
    have key : ∀ i, a.testBit i = false ∧ b.testBit i = false := by
      intro i
      have := Nat.testBit_or a b i
      rw [h, Nat.zero_testBit] at this
      simpa using this.symm
    exact ⟨Nat.eq_of_testBit_eq (fun i => by simp [(key i).1]),
           Nat.eq_of_testBit_eq (fun i => by simp [(key i).2])⟩
  · rintro ⟨rfl, rfl⟩; rfl

theorem land_lor_eq_zero (F a b : Nat) :
    F &&& (a ||| b) = 0 ↔ (F &&& a = 0 ∧ F &&& b = 0) := by
  rw [Nat.and_or_distrib_left, lor_eq_zero]

/-- The interest set has the readable bit exactly when the read-poll bit is set, the
writable bit exactly when the write-poll bit is set, and no other bit. -/
theorem poll_events_bits (c : Consts) (F : Nat) :
    (poll_events c F &&& EPOLLIN ≠ 0 ↔ F &&& c.TCPSRV_POLL_READ ≠ 0) ∧
    (poll_events c F &&& EPOLLOUT ≠ 0 ↔ F &&& c.TCPSRV_POLL_WRITE ≠ 0) ∧
    poll_events c F &&& (EPOLLIN ||| EPOLLOUT) = poll_events c F := by
  by_cases hr : F &&& c.TCPSRV_POLL_READ = 0 <;>
  by_cases hw : F &&& c.TCPSRV_POLL_WRITE = 0 <;>
  (simp [poll_events, hr, hw, EPOLLIN, EPOLLOUT]; try decide)

theorem distinct_bits_poll (c : Consts) (h : c.distinct_bits) :
    c.TCPSRV_POLL_READ ≠ 0 ∧ c.TCPSRV_POLL_READ &&& c.TCPSRV_POLL_WRITE = 0 := by
  simp [Consts.distinct_bits] at h
  tauto

theorem distinct_bits_can (c : Consts) (h : c.distinct_bits) :
    c.TCPSRV_CAN_READ ≠ 0 ∧ c.TCPSRV_CAN_WRITE ≠ 0 ∧
      c.TCPSRV_CAN_READ &&& c.TCPSRV_CAN_WRITE = 0 := by
  simp [Consts.distinct_bits] at h
  tauto

/-- The capability flags carry the read bit exactly for a readable event and the
write bit exactly for a writable one. -/
theorem can_flags_bits (c : Consts) (hd : c.distinct_bits) (events : Nat) :
    (can_flags c events &&& c.TCPSRV_CAN_READ ≠ 0 ↔ events &&& EPOLLIN ≠ 0) ∧
    (can_flags c events &&& c.TCPSRV_CAN_WRITE ≠ 0 ↔ events &&& EPOLLOUT ≠ 0) := by
  obtain ⟨h1, h2, h3⟩ := distinct_bits_can c hd
  have ha : (c.TCPSRV_CAN_READ ||| c.TCPSRV_CAN_WRITE) &&& c.TCPSRV_CAN_READ
      = c.TCPSRV_CAN_READ := by
    rw [Nat.land_comm, Nat.and_or_distrib_left, Nat.and_self, h3, Nat.or_zero]
  have hb : (c.TCPSRV_CAN_READ ||| c.TCPSRV_CAN_WRITE) &&& c.TCPSRV_CAN_WRITE
      = c.TCPSRV_CAN_WRITE := by
    rw [Nat.land_comm, Nat.and_or_distrib_left, Nat.land_comm c.TCPSRV_CAN_WRITE, h3,
      Nat.and_self, Nat.zero_or]
  have h3' : c.TCPSRV_CAN_WRITE &&& c.TCPSRV_CAN_READ = 0 := by rw [Nat.land_comm]; exact h3
  by_cases hr : events &&& EPOLLIN = 0 <;> by_cases hw : events &&& EPOLLOUT = 0 <;>
  simp [can_flags, hr, hw, h1, h2, h3, h3', ha, hb]

/-! ## The bodies of `accept_client` and of the worker loop -/

theorem accept_client_cb (c : Consts) (t : tcpsrv_t) (fd : Nat) (io : Int)
    (ok : Bool) (cb : callback) (hfd : (fd : Int) ≤ t.p.maxfd)
    (hcb : t.p.on_accept = some cb) :
    accept_client c t { fd := some fd, io := io, epoll_ok := ok }
      = accept_cb_body c t fd ok (cb io (fd_slot t fd) fd c.TCPSRV_POLL_READ) := by
  have hgt : ¬ ((fd : Int) > t.p.maxfd) := by omega
  have hs : ∀ x, fd_slot { t with num_accepts := x } fd = fd_slot t fd := fun _ => rfl
  simp only [accept_client, hgt, if_false, hcb, accept_cb_body, hs]
  by_cases hE : cb io (fd_slot t fd) fd c.TCPSRV_POLL_READ &&& c.TCPSRV_DO_EXIT = 0 <;>
  by_cases hC : cb io (fd_slot t fd) fd c.TCPSRV_POLL_READ &&& c.TCPSRV_DO_CLOSE = 0 <;>
  simp only [hE, hC, land_lor_eq_zero, ne_eq, not_true_eq_false, not_false_eq_true,
    if_true, if_false, and_self, and_false, false_and] <;> rfl

theorem accept_client_nocb (c : Consts) (t : tcpsrv_t) (fd : Nat) (io : Int)
    (ok : Bool) (hfd : (fd : Int) ≤ t.p.maxfd) (hcb : t.p.on_accept = none) :
    accept_client c t { fd := some fd, io := io, epoll_ok := ok }
      = handoff c { t with num_accepts := t.num_accepts + 1 }
          (Int.tmod fd t.p.nthread) c.TCPSRV_POLL_READ fd ok := by
  have hgt : ¬ ((fd : Int) > t.p.maxfd) := by omega
  simp only [accept_client, hgt, if_false, hcb]

theorem tmod_index (fd : Nat) (n : Int) (hn : 1 ≤ n) :
    Int.tmod fd n = (fd : Int) % n ∧ 0 ≤ (fd : Int) % n ∧ (fd : Int) % n < n :=
  ⟨Int.tmod_eq_emod (Int.ofNat_nonneg fd) (by omega), Int.emod_nonneg _ (by omega),
   Int.emod_lt_of_pos _ (by omega)⟩

/-- The loop body of `worker` on a connection event, as a function of the flags `F`
that `on_data` leaves behind. -/
theorem worker_step_conn (c : Consts) (t : tcpsrv_t) (tc : tcpsrv_thread_t)
    (e : worker_ev) (hfd : e.fd ≠ tc.pipe_fd0) :
    worker_step c t tc e
      = worker_conn_body c t tc e
          ((t.p.on_data.getD (drain c)) e.io (fd_slot t e.fd) e.fd (can_flags c e.events)) := by
  simp only [worker_step, hfd, if_false, worker_conn_body]
  generalize (t.p.on_data.getD (drain c)) e.io (fd_slot t e.fd) e.fd (can_flags c e.events) = F
  by_cases hE : F &&& c.TCPSRV_DO_EXIT = 0 <;>
  by_cases hC : F &&& c.TCPSRV_DO_CLOSE = 0 <;>
  by_cases hP : F &&& (c.TCPSRV_POLL_READ ||| c.TCPSRV_POLL_WRITE) = 0 <;>
  simp only [hE, hC, hP, land_lor_eq_zero, ne_eq, not_true_eq_false, not_false_eq_true,
    if_true, if_false, and_self, and_false, false_and] <;> rfl

/-! ## Broadcasts, signals and the shutdown flag -/

theorem foldl_emit {α : Type} (f : α → Effect) (l : List α) (t : tcpsrv_t) :
    l.foldl (fun s n => s.emit (f n)) t = { t with log := t.log ++ l.map f } := by
  induction l generalizing t with
  | nil => simp
  | cons a l ih =>
    simp only [List.foldl_cons, List.map_cons]
    rw [ih]
    simp [tcpsrv_t.emit]

theorem send_workers_eq (t : tcpsrv_t) (op : Nat) :
    send_workers t op = { t with log := t.log ++ broadcast t.p.nthread op } := by
  unfold send_workers broadcast
  exact foldl_emit (fun n : Nat => Effect.pipe_write (Int.ofNat n) op) _ t

theorem sent_broadcast (nthread : Int) (op : Nat) (k : Int) (h0 : 0 ≤ k)
    (h1 : k < nthread) : sent (broadcast nthread op) k op = 1 := by
  unfold sent broadcast
  have hinj : Function.Injective (fun n : Nat => Effect.pipe_write (Int.ofNat n) op) := by
    intro a b h
    simpa using h
  have hk : Effect.pipe_write k op
      = (fun n : Nat => Effect.pipe_write (Int.ofNat n) op) k.toNat := by
    simp [Int.toNat_of_nonneg h0]
  rw [hk, List.count_map_of_injective _ _ hinj]
  apply List.count_eq_one_of_mem (List.nodup_range _)
  rw [List.mem_range]
  omega

theorem handle_signal_alarm (c : Consts) (t : tcpsrv_t) :
    handle_signal c t { siginfo := some SIGALRM }
      = { t with ticks := t.ticks + 1,
                 log := t.log
                   ++ (if Int.tmod (t.ticks + 1) 10 = 0
                       then broadcast t.p.nthread c.WORKER_PING else [])
                   ++ [Effect.alarm 1] } := by
  by_cases hp : Int.tmod (t.ticks + 1) 10 = 0 <;>
  simp [handle_signal, hp, periodic, send_workers_eq, tcpsrv_t.emit]

theorem alarms_fields (c : Consts) (t : tcpsrv_t) (n : Nat) :
    (alarms c t n).ticks = t.ticks + n ∧ (alarms c t n).shutdown = t.shutdown ∧
    (alarms c t n).p = t.p := by
  induction n with
  | zero => simp [alarms]
  | succ n ih =>
    obtain ⟨h1, h2, h3⟩ := ih
    simp only [alarms, handle_signal_alarm]
    refine ⟨?_, h2, h3⟩
    simp [h1]
    omega

theorem accept_client_shutdown (c : Consts) (t : tcpsrv_t) (i : accept_in) :
    (accept_client c t i).shutdown = t.shutdown ∨ (accept_client c t i).shutdown = 1 := by
  obtain ⟨fd, io, ok⟩ := i
  cases fd with
  | none => simp [accept_client]
  | some fd =>
    by_cases hfd : (fd : Int) > t.p.maxfd
    · simp [accept_client, hfd, close_fd]
    · have hfd' : (fd : Int) ≤ t.p.maxfd := by omega
      cases hcb : t.p.on_accept with
      | none =>
        rw [accept_client_nocb c t fd io ok hfd' hcb]
        cases ok <;> simp [handoff, add_epoll, close_fd, tcpsrv_t.emit]
      | some cb =>
        rw [accept_client_cb c t fd io ok cb hfd' hcb]
        generalize cb io (fd_slot t fd) fd c.TCPSRV_POLL_READ = F
        by_cases hE : F &&& c.TCPSRV_DO_EXIT = 0 <;>
        by_cases hC : F &&& c.TCPSRV_DO_CLOSE = 0 <;>
        by_cases hU : t.p.upon_close = true <;>
        cases ok <;>
        simp [accept_cb_body, hE, hC, hU, land_lor_eq_zero, handoff, add_epoll, close_fd,
          tcpsrv_t.emit]

theorem handle_signal_shutdown (c : Consts) (t : tcpsrv_t) (i : signal_in) :
    (handle_signal c t i).shutdown = t.shutdown ∨ (handle_signal c t i).shutdown = 1 := by
  obtain ⟨si⟩ := i
  cases si with
  | none => simp [handle_signal]
  | some signo =>
    by_cases hs : signo = SIGALRM
    · by_cases hp : Int.tmod (t.ticks + 1) 10 = 0 <;>
      simp [handle_signal, hs, hp, periodic, send_workers_eq, tcpsrv_t.emit]
    · simp [handle_signal, hs]

theorem main_step_shutdown (c : Consts) (t : tcpsrv_t) (e : main_ev) :
    (main_step c t e).shutdown = t.shutdown ∨ (main_step c t e).shutdown = 1 := by
  unfold main_step
  split_ifs
  · exact accept_client_shutdown c t e.acc
  · exact handle_signal_shutdown c t e.sig
  · exact Or.inl rfl

theorem worker_step_shutdown (c : Consts) (t : tcpsrv_t) (tc : tcpsrv_thread_t)
    (e : worker_ev) :
    (worker_step c t tc e).1.shutdown = t.shutdown ∨ (worker_step c t tc e).1.shutdown = 1 := by
  by_cases hfd : e.fd = tc.pipe_fd0
  · cases hrd : e.rd with
    | none => simp [worker_step, hfd, hrd]
    | some op =>
      by_cases hop : op = c.WORKER_SHUTDOWN <;> simp [worker_step, hfd, hrd, hop]
  · rw [worker_step_conn c t tc e hfd]
    generalize (t.p.on_data.getD (drain c)) e.io (fd_slot t e.fd) e.fd (can_flags c e.events)
      = F
    by_cases hE : F &&& c.TCPSRV_DO_EXIT = 0 <;>
    by_cases hC : F &&& c.TCPSRV_DO_CLOSE = 0 <;>
    by_cases hP : F &&& (c.TCPSRV_POLL_READ ||| c.TCPSRV_POLL_WRITE) = 0 <;>
    by_cases hU : t.p.upon_close = true <;>
    cases hok : e.epoll_ok <;>
    simp [worker_conn_body, hE, hC, hP, hU, hok, land_lor_eq_zero, mod_epoll, close_fd,
      tcpsrv_t.emit]

/-- The main loop skips over a prefix of events none of which leaves the shutdown
flag set. -/
theorem run_loop_append (c : Consts) (pre : List main_ev) (t : tcpsrv_t)
    (es : List main_ev)
    (h : ∀ k, k < pre.length → (List.foldl (main_step c) t (pre.take (k + 1))).shutdown = 0) :
    run_loop c t (pre ++ es) = run_loop c (List.foldl (main_step c) t pre) es := by
  induction pre generalizing t with
  | nil => simp
  | cons e pre ih =>
    have h0 : (main_step c t e).shutdown = 0 := by
      have := h 0 (by simp)
      simpa using this
    have hrest : ∀ k, k < pre.length →
        (List.foldl (main_step c) (main_step c t e) (pre.take (k + 1))).shutdown = 0 := by
      intro k hk
      have := h (k + 1) (by simp; omega)
      simpa using this
    simp [run_loop, h0, ih (main_step c t e) hrest]

theorem accept_client_sent (c : Consts) (t : tcpsrv_t) (i : accept_in) (k : Int) (op : Nat) :
    sent (accept_client c t i).log k op = sent t.log k op := by
  obtain ⟨fd, io, ok⟩ := i
  cases fd with
  | none => simp [accept_client]
  | some fd =>
    by_cases hfd : (fd : Int) > t.p.maxfd
    · simp [accept_client, hfd, close_fd, sent]
    · have hfd' : (fd : Int) ≤ t.p.maxfd := by omega
      cases hcb : t.p.on_accept with
      | none =>
        rw [accept_client_nocb c t fd io ok hfd' hcb]
        cases ok <;> simp [handoff, add_epoll, close_fd, tcpsrv_t.emit, sent]
      | some cb =>
        rw [accept_client_cb c t fd io ok cb hfd' hcb]
        generalize cb io (fd_slot t fd) fd c.TCPSRV_POLL_READ = F
        by_cases hE : F &&& c.TCPSRV_DO_EXIT = 0 <;>
        by_cases hC : F &&& c.TCPSRV_DO_CLOSE = 0 <;>
        by_cases hU : t.p.upon_close = true <;>
        cases ok <;>
        simp [accept_cb_body, hE, hC, hU, land_lor_eq_zero, handoff, add_epoll, close_fd,
          tcpsrv_t.emit, sent]

theorem handle_signal_sent (c : Consts) (t : tcpsrv_t) (i : signal_in) (k : Int) (op : Nat)
    (hop : c.WORKER_PING ≠ op) :
    sent (handle_signal c t i).log k op = sent t.log k op := by
  obtain ⟨si⟩ := i
  cases si with
  | none => simp [handle_signal]
  | some signo =>
    by_cases hs : signo = SIGALRM
    · subst hs
      rw [handle_signal_alarm]
      have hb : List.count (Effect.pipe_write k op) (broadcast t.p.nthread c.WORKER_PING) = 0 := by
        rw [List.count_eq_zero]
        intro hmem
        simp [broadcast] at hmem
        obtain ⟨_, _, _, h⟩ := hmem
        exact hop h
      by_cases hp : Int.tmod (t.ticks + 1) 10 = 0 <;> simp [sent, hp, hb]
    · simp [handle_signal, hs]

theorem main_step_sent (c : Consts) (t : tcpsrv_t) (e : main_ev) (k : Int) (op : Nat)
    (hop : c.WORKER_PING ≠ op) :
    sent (main_step c t e).log k op = sent t.log k op := by
  unfold main_step
  split_ifs
  · exact accept_client_sent c t e.acc k op
  · exact handle_signal_sent c t e.sig k op hop
  · rfl

theorem main_steps_sent (c : Consts) (es : List main_ev) (t : tcpsrv_t) (k : Int) (op : Nat)
    (hop : c.WORKER_PING ≠ op) :
    sent (List.foldl (main_step c) t es).log k op = sent t.log k op := by
  induction es generalizing t with
  | nil => rfl
  | cons e es ih => simp only [List.foldl_cons]; rw [ih, main_step_sent c t e k op hop]

theorem run_setup_sent (t : tcpsrv_t) (i : run_in) (k : Int) (op : Nat) :
    sent (run_setup t i).1.log k op = sent t.log k op := by
  obtain ⟨l, ok1, ok2, evs⟩ := i
  cases l with
  | none => rfl
  | some lfd =>
    cases ok1 <;> cases ok2 <;>
    simp only [run_setup, add_epoll, foldl_emit] <;>
    simp [tcpsrv_t.emit, sent, List.count_eq_zero]

/-! ## Registrations on the epoll instances -/

theorem grows_frame {t t' : tcpsrv_t} (P : Mux → Int → Prop) (h1 : t'.p = t.p)
    (h2 : t'.slots = t.slots) (h3 : t'.tc = t.tc) (h4 : t'.epoll = t.epoll) :
    grows t t' P :=
  ⟨⟨h1, h2, h3⟩, fun ep f h => Or.inl (by rw [h4] at h; exact h)⟩

theorem grows_trans {t t' t'' : tcpsrv_t} {P : Mux → Int → Prop}
    (h : grows t t' P) (h' : grows t' t'' P) : grows t t'' P := by
  obtain ⟨⟨a1, a2, a3⟩, a4⟩ := h
  obtain ⟨⟨b1, b2, b3⟩, b4⟩ := h'
  refine ⟨⟨b1.trans a1, b2.trans a2, b3.trans a3⟩, ?_⟩
  intro ep f hf
  rcases b4 ep f hf with h1 | h1
  · exact a4 ep f h1
  · exact Or.inr h1

theorem grows_close (t : tcpsrv_t) (fd : Int) (P : Mux → Int → Prop) :
    grows t (close_fd t fd) P := by
  refine ⟨⟨rfl, rfl, rfl⟩, ?_⟩
  intro ep f
  by_cases hf : f = fd
  · simp [close_fd, hf]
  · simp only [close_fd, hf, if_false]
    exact Or.inl

theorem grows_add (t : tcpsrv_t) (ep0 : Mux) (ev : Nat) (fd : Int) (ok : Bool)
    (P : Mux → Int → Prop) (h : (t.epoll ep0 fd).isSome ∨ P ep0 fd) :
    grows t (add_epoll t ep0 ev fd ok).1 P := by
  cases ok
  · exact grows_frame P rfl rfl rfl rfl
  · refine ⟨⟨rfl, rfl, rfl⟩, ?_⟩
    intro ep f
    by_cases hf : ep = ep0 ∧ f = fd
    · obtain ⟨rfl, rfl⟩ := hf
      intro _
      exact h
    · simp only [add_epoll, hf, if_false, if_true]
      exact Or.inl

theorem grows_handoff (c : Consts) (t : tcpsrv_t) (k : Int) (F : Nat) (fd : Int)
    (ok : Bool) (P : Mux → Int → Prop) (h : P (Mux.worker k) fd) :
    grows t (handoff c t k F fd ok) P := by
  have hadd := grows_add t (Mux.worker k) (poll_events c F) fd ok P (Or.inr h)
  cases ok
  · simp only [handoff, add_epoll]
    exact grows_trans hadd
      (grows_trans (grows_close _ fd P) (grows_frame P rfl rfl rfl rfl))
  · simpa [handoff, add_epoll] using hadd

theorem grows_accept_client (c : Consts) (t : tcpsrv_t) (i : accept_in) :
    grows t (accept_client c t i)
      (fun ep f => (∃ n, ep = Mux.worker n) ∧ 0 ≤ f ∧ f ≤ t.p.maxfd) := by
  obtain ⟨fd, io, ok⟩ := i
  cases fd with
  | none => exact grows_frame _ rfl rfl rfl rfl
  | some fd =>
    by_cases hfd : (fd : Int) > t.p.maxfd
    · simp only [accept_client, hfd, if_true]
      exact grows_trans (grows_frame _ rfl rfl rfl rfl) (grows_close _ _ _)
    · have hfd' : (fd : Int) ≤ t.p.maxfd := by omega
      have hnn : (0 : Int) ≤ fd := Int.ofNat_nonneg fd
      have hP : ∀ k : Int, (fun (ep : Mux) (f : Int) =>
          (∃ n, ep = Mux.worker n) ∧ 0 ≤ f ∧ f ≤ t.p.maxfd) (Mux.worker k) fd :=
        fun k => ⟨⟨k, rfl⟩, hnn, hfd'⟩
      cases hcb : t.p.on_accept with
      | none =>
        rw [accept_client_nocb c t fd io ok hfd' hcb]
        exact grows_trans (grows_frame _ rfl rfl rfl rfl) (grows_handoff c _ _ _ _ ok _ (hP _))
      | some cb =>
        rw [accept_client_cb c t fd io ok cb hfd' hcb]
        generalize cb io (fd_slot t fd) fd c.TCPSRV_POLL_READ = F
        simp only [accept_cb_body]
        split_ifs <;>
        first
        | exact grows_frame _ rfl rfl rfl rfl
        | exact grows_trans (grows_frame _ rfl rfl rfl rfl) (grows_close _ _ _)
        | exact grows_trans (grows_frame _ rfl rfl rfl rfl)
            (grows_handoff c _ _ _ _ ok _ (hP _))
        | exact grows_trans (grows_trans (grows_frame _ rfl rfl rfl rfl) (grows_close _ _ _))
            (grows_handoff c _ _ _ _ ok _ (hP _))

theorem grows_handle_signal (c : Consts) (t : tcpsrv_t) (i : signal_in)
    (P : Mux → Int → Prop) : grows t (handle_signal c t i) P := by
  obtain ⟨si⟩ := i
  cases si with
  | none => exact grows_frame P rfl rfl rfl rfl
  | some signo =>
    by_cases hs : signo = SIGALRM
    · subst hs
      rw [handle_signal_alarm]
      exact grows_frame P rfl rfl rfl rfl
    · simp only [handle_signal, hs, if_false]
      exact grows_frame P rfl rfl rfl rfl

theorem grows_run_setup (t : tcpsrv_t) (i : run_in) :
    grows t (run_setup t i).1 (fun ep _ => ep = Mux.main) := by
  obtain ⟨l, ok1, ok2, evs⟩ := i
  cases l with
  | none => exact grows_frame _ rfl rfl rfl rfl
  | some lfd =>
    have h1 := grows_add { t with fd := lfd } Mux.main EPOLLIN lfd ok1
      (fun ep _ => ep = Mux.main) (Or.inr rfl)
    have h0 : grows t { t with fd := lfd } (fun ep _ => ep = Mux.main) :=
      grows_frame _ rfl rfl rfl rfl
    have h2 := grows_add (add_epoll { t with fd := lfd } Mux.main EPOLLIN lfd ok1).1
      Mux.main EPOLLIN (add_epoll { t with fd := lfd } Mux.main EPOLLIN lfd ok1).1.signal_fd
      ok2 (fun ep _ => ep = Mux.main) (Or.inr rfl)
    cases ok1 <;> cases ok2 <;>
    simp only [run_setup, add_epoll, foldl_emit] <;>
    first
    | exact grows_trans h0 h1
    | exact grows_trans (grows_trans h0 h1) h2

theorem main_steps_p (c : Consts) (es : List main_ev) (t : tcpsrv_t) :
    (List.foldl (main_step c) t es).p = t.p := by
  induction es generalizing t with
  | nil => rfl
  | cons e es ih =>
    simp only [List.foldl_cons]
    rw [ih]
    unfold main_step
    split_ifs
    · exact (grows_accept_client c t e.acc).1.1
    · exact (grows_handle_signal c t e.sig (fun _ _ => False)).1.1
    · rfl

/-! ## The server built by `tcpsrv_init` and its unwinding -/

/-- No result of the fixed-width arithmetic exceeds the largest value of the type. -/
theorem wrap_le_max (a : slot_arith) (x : Int) : a.wrap x ≤ a.max_value := by
  cases a <;> simp only [slot_arith.wrap, slot_arith.max_value] <;> omega

/-- When the product `fd * sz` does not fit the type, `fd_slot` yields an offset
below `fd * sz`: not the offset of the record of `fd`. -/
theorem fd_slot_overflow (t : tcpsrv_t) (fd : Int)
    (h : t.p.sz_type.max_value < fd * t.p.sz) : fd_slot t fd < fd * t.p.sz :=
  lt_of_le_of_lt (wrap_le_max _ _) h

theorem erase_perm {held rest : List Res} (a : Res) (h : held.Perm (a :: rest)) :
    (release held a).Perm rest := by
  have := h.erase a
  simpa [release] using this

theorem release_if_perm {held rest : List Res} (b : Prop) [Decidable b] (a : Res)
    (h : held.Perm ((if b then [a] else []) ++ rest)) :
    (if b then release held a else held).Perm rest := by
  by_cases hb : b
  · simp only [hb, if_true] at h ⊢
    exact erase_perm a h
  · simpa [hb] using h

theorem cleanup_thread_perm {held rest : List Res} (w : tcpsrv_thread_t)
    (h : held.Perm (thread_res w ++ rest)) : (cleanup_thread held w).Perm rest := by
  unfold cleanup_thread
  unfold thread_res at h
  simp only [List.append_assoc] at h
  exact release_if_perm _ _ (release_if_perm _ _ (release_if_perm _ _ h))

theorem foldl_cleanup_perm (l : List tcpsrv_thread_t) :
    ∀ {held rest : List Res}, held.Perm (l.flatMap thread_res ++ rest) →
      (l.foldl cleanup_thread held).Perm rest := by
  induction l with
  | nil => intro held rest h; simpa using h
  | cons w l ih =>
    intro held rest h
    simp only [List.foldl_cons]
    apply ih
    apply cleanup_thread_perm w
    simpa [List.flatMap_cons, List.append_assoc] using h

theorem bind_modify_perm (f : tcpsrv_thread_t → tcpsrv_thread_t) :
    ∀ (l : List tcpsrv_thread_t) (n : Nat) (w : tcpsrv_thread_t), l[n]? = some w →
      thread_res w = [] →
      ((l.modify f n).flatMap thread_res).Perm (thread_res (f w) ++ l.flatMap thread_res) := by
  intro l
  induction l with
  | nil => intro n w h; simp at h
  | cons a l ih =>
    intro n w h hz
    cases n with
    | zero =>
      simp at h
      subst h
      simp [List.flatMap_cons, hz]
    | succ n =>
      simp at h
      have := ih n w h hz
      simp only [List.modify_succ_cons, List.flatMap_cons]
      refine (List.Perm.append_left _ this).trans ?_
      rw [← List.append_assoc, ← List.append_assoc]
      exact List.Perm.append_right _ List.perm_append_comm

/-- The loop over the worker contexts adds the same handles to the resources held
and to what the cleanup loop will release. -/
theorem init_workers_perm (env : init_env) (hpos : env_positive env) (k : Nat) :
    ∀ (n : Nat) (st : init_st) (l : List tcpsrv_thread_t), st.tc = some l →
      n + k ≤ l.length →
      (∀ (i : Nat) (w : tcpsrv_thread_t), n ≤ i → l[i]? = some w → thread_res w = []) →
      ∃ l' X, (init_workers env k n st).1.tc = some l' ∧
        (init_workers env k n st).1.held.Perm (X ++ st.held) ∧
        (l'.flatMap thread_res).Perm (X ++ l.flatMap thread_res) ∧
        (init_workers env k n st).1.slots = st.slots ∧
        (init_workers env k n st).1.th = st.th ∧
        (init_workers env k n st).1.signal_fd = st.signal_fd ∧
        (init_workers env k n st).1.epoll_fd = st.epoll_fd := by
  obtain ⟨-, -, hpipe, hep⟩ := hpos
  induction k with
  | zero =>
    intro n st l hl _ _
    exact ⟨l, [], by simpa [init_workers] using hl, by simp [init_workers],
      by simp, rfl, rfl, rfl, rfl⟩
  | succ k ih =>
    intro n st l hl hlen hz
    have hn : n < l.length := by omega
    have hw0 : l[n]? = some l[n] := List.getElem?_eq_getElem hn
    have hz0 : thread_res l[n] = [] := hz n _ (le_refl n) hw0
    cases hp : env.pipe n with
    | none =>
      have hres : init_workers env (k + 1) n st
          = (st.set_tc n (fun w => { w with thread_idx := n }), -1) := by
        simp only [init_workers, hp]
      rw [hres]
      refine ⟨l.modify (fun w => { w with thread_idx := n }) n, [],
        by simp [init_st.set_tc, hl], by simp [init_st.set_tc], ?_, rfl, rfl, rfl, rfl⟩
      have := bind_modify_perm (fun w => { w with thread_idx := n }) l n _ hw0 hz0
      have e : thread_res { l[n] with thread_idx := (n : Int) } = [] := hz0
      rw [e] at this
      simpa using this
    | some rw =>
      obtain ⟨r, w⟩ := rw
      obtain ⟨hr, hw⟩ := hpipe n r w hp
      have hr' : (r : Int) > 0 := by exact_mod_cast hr
      have hw' : (w : Int) > 0 := by exact_mod_cast hw
      cases he : env.epoll_create_n n with
      | none =>
        have hres : init_workers env (k + 1) n st
            = ((({ (st.set_tc n (fun w => { w with thread_idx := n })).set_tc n
                  (fun x => { x with pipe_fd0 := r, pipe_fd1 := w }) with
                  held := Res.handle w :: Res.handle r :: st.held } : init_st).set_tc n
                (fun x => { x with epoll_fd := -1 })), -1) := by
          simp only [init_workers, hp, he]
          rfl
        rw [hres]
        refine ⟨l.modify ((fun x => { x with epoll_fd := -1 }) ∘
              (fun x => { x with pipe_fd0 := (r : Int), pipe_fd1 := (w : Int) }) ∘
              (fun w => { w with thread_idx := (n : Int) })) n,
          [Res.handle w, Res.handle r], ?_, ?_, ?_, rfl, rfl, rfl, rfl⟩
        · simp only [init_st.set_tc, hl, Option.map_some', List.modify_modify_eq]
        · simp [init_st.set_tc]
        · refine (bind_modify_perm _ l n _ hw0 hz0).trans ?_
          simp only [thread_res, Function.comp, hr', hw', if_true]
          simp
          exact List.Perm.swap _ _ _
      | some e =>
        have he' : (e : Int) > 0 := by exact_mod_cast hep n e he
        have hres : init_workers env (k + 1) n st
            = init_workers env k (n + 1)
                { (({ (st.set_tc n (fun w => { w with thread_idx := n })).set_tc n
                      (fun x => { x with pipe_fd0 := r, pipe_fd1 := w }) with
                      held := Res.handle w :: Res.handle r :: st.held } : init_st).set_tc n
                    (fun x => { x with epoll_fd := e })) with
                  held := Res.handle e :: Res.handle w :: Res.handle r :: st.held } := by
          simp only [init_workers, hp, he]
          rfl
        rw [hres]
        have hl3 : ({ (({ (st.set_tc n (fun w => { w with thread_idx := n })).set_tc n
                      (fun x => { x with pipe_fd0 := r, pipe_fd1 := w }) with
                      held := Res.handle w :: Res.handle r :: st.held } : init_st).set_tc n
                    (fun x => { x with epoll_fd := e })) with
                  held := Res.handle e :: Res.handle w :: Res.handle r :: st.held }
                : init_st).tc
            = some (l.modify ((fun x => { x with epoll_fd := (e : Int) }) ∘
                (fun x => { x with pipe_fd0 := (r : Int), pipe_fd1 := (w : Int) }) ∘
                (fun w => { w with thread_idx := (n : Int) })) n) := by
          simp only [init_st.set_tc, hl, Option.map_some', List.modify_modify_eq]
        obtain ⟨l', X', h1, h2, h3, h4, h5, h6, h7⟩ := ih (n + 1) _ _ hl3
          (by rw [List.length_modify]; omega)
          (by intro i x hi hx
              rw [List.getElem?_modify_ne _ _ (by omega)] at hx
              exact hz i x (by omega) hx)
        refine ⟨l', X' ++ [Res.handle e, Res.handle w, Res.handle r], h1, ?_, ?_,
          h4, h5, h6, h7⟩
        · simpa [List.append_assoc] using h2
        · refine h3.trans ?_
          rw [List.append_assoc]
          refine List.Perm.append_left _ ?_
          refine (bind_modify_perm _ l n _ hw0 hz0).trans ?_
          simp only [thread_res, Function.comp, hr', hw', he', if_true]
          refine List.Perm.append_right _ ?_
          simp only [List.singleton_append, List.cons_append, List.nil_append]
          exact List.reverse_perm [Res.handle (e : Int), Res.handle (w : Int),
            Res.handle (r : Int)]

/-- The unwinding leaves nothing behind when the resources held are exactly those
it looks for. -/
theorem init_cleanup_nil (st : init_st) (h : st.held.Perm (owned st)) :
    init_cleanup st = [] := by
  unfold owned at h
  have p4 := release_if_perm _ _ (release_if_perm _ _ (release_if_perm _ _
    (release_if_perm _ _ h)))
  unfold init_cleanup
  cases htc : st.tc with
  | none =>
    simp only [htc] at p4
    exact List.Perm.eq_nil (erase_perm Res.mem_t (by simpa using p4))
  | some l =>
    simp only [htc, List.append_assoc] at p4
    exact List.Perm.eq_nil (erase_perm Res.mem_t
      (erase_perm Res.mem_tc (foldl_cleanup_perm l p4)))

/-- The loop over the worker contexts keeps the resources held equal to those the
unwinding looks for. -/
theorem init_workers_owned (env : init_env) (hpos : env_positive env) (k n : Nat)
    (st : init_st) (l : List tcpsrv_thread_t) (htc : st.tc = some l)
    (hlen : n + k ≤ l.length)
    (hz : ∀ (i : Nat) (w : tcpsrv_thread_t), n ≤ i → l[i]? = some w → thread_res w = [])
    (hheld : st.held.Perm (owned st)) :
    (init_workers env k n st).1.held.Perm (owned (init_workers env k n st).1) := by
  obtain ⟨l', X, e1, e2, e3, e4, e5, e6, e7⟩ := init_workers_perm env hpos k n st l htc hlen hz
  have m2 := Multiset.coe_eq_coe.mpr e2
  have m3 := Multiset.coe_eq_coe.mpr e3
  have m0 := Multiset.coe_eq_coe.mpr hheld
  apply Multiset.coe_eq_coe.mp
  rw [m2]
  simp only [owned, e1, e4, e5, e6, e7, htc, ← Multiset.coe_add] at m0 ⊢
  rw [m0, m3, ← Multiset.coe_add]
  abel

/-- When every handle handed out is positive, the unwinding of `tcpsrv_init`
releases everything the call had acquired. -/
theorem init_body_cleanup (p : tcpsrv_init_t) (env : init_env) (hpos : env_positive env) :
    init_cleanup (init_body p env
      { slots := false, th := false, signal_fd := 0, epoll_fd := 0, tc := none,
        held := [Res.mem_t], log := [] }).1 = [] := by
  obtain ⟨hsig, hep, -, -⟩ := id hpos
  apply init_cleanup_nil
  unfold init_body
  cases h1 : env.calloc_slots
  · simp [owned]
  cases h2 : env.calloc_th
  · by_cases hi : p.slot_init = true <;> simp [owned, hi]
  cases h3 : env.signalfd with
  | none =>
    by_cases hi : p.slot_init = true <;> simp [owned, hi] <;> exact List.Perm.swap _ _ _
  | some sfd =>
    have hs' : 0 < sfd := hsig sfd h3
    have hsfd : (sfd : Int) > 0 := by exact_mod_cast hs'
    cases h4 : env.epoll_create with
    | none =>
      by_cases hi : p.slot_init = true <;> simp only [owned, hi, hsfd] <;>
      (apply Multiset.coe_eq_coe.mp
       simp [← Multiset.coe_add, ← Multiset.cons_coe, ← Multiset.singleton_add, hs']
       abel)
    | some ep =>
      have he' : 0 < ep := hep ep h4
      have hepp : (ep : Int) > 0 := by exact_mod_cast he'
      cases h5 : env.calloc_tc
      · by_cases hi : p.slot_init = true <;> simp only [owned, hi, hsfd, hepp] <;>
        (apply Multiset.coe_eq_coe.mp
         simp [← Multiset.coe_add, ← Multiset.cons_coe, ← Multiset.singleton_add, hs', he']
         abel)
      · simp only [Bool.not_true, Bool.false_eq_true, if_false]
        apply init_workers_owned env hpos _ _ _ (List.replicate p.nthread.toNat zero_thread)
        · by_cases hi : p.slot_init = true <;> simp [hi]
        · simp
        · intro i w _ hw
          have hmem := List.getElem?_mem hw
          rw [List.eq_of_mem_replicate hmem]
          rfl
        · have hrep : ∀ k : Nat, (List.replicate k zero_thread).flatMap thread_res = [] := by
            intro k
            induction k with
            | zero => rfl
            | succ k ih => simp [List.replicate_succ, ih, thread_res, zero_thread]
          by_cases hi : p.slot_init = true <;> simp only [owned, hi, hsfd, hepp, hrep] <;>
          (apply Multiset.coe_eq_coe.mp
           simp [← Multiset.coe_add, ← Multiset.cons_coe, ← Multiset.singleton_add, hs', he']
           abel)

/-- Whenever `tcpsrv_init` returns a null pointer and every handle the operating
system had handed out to it is positive, nothing it acquired is still held. -/
theorem tcpsrv_init_unwinds (c : Consts) (p : tcpsrv_init_t) (env : init_env)
    (hpos : env_positive env) (hnull : (tcpsrv_init c p env).t = none) :
    (tcpsrv_init c p env).held = [] := by
  unfold tcpsrv_init at hnull ⊢
  cases h0 : env.calloc_t
  · simp
  · simp only [h0, Bool.not_true, Bool.false_eq_true, if_false] at hnull ⊢
    split_ifs at hnull ⊢ with hrc
    exact init_body_cleanup p env hpos

/-- The loop over the worker contexts jumps to `done` exactly when the `pipe` or the
`epoll_create` of one of its indices fails. -/
theorem init_workers_rc (env : init_env) (k : Nat) :
    ∀ (n : Nat) (st : init_st),
      ((init_workers env k n st).2 < 0 ↔
        ∃ i, n ≤ i ∧ i < n + k ∧ (env.pipe i = none ∨ env.epoll_create_n i = none)) := by
  induction k with
  | zero =>
    intro n st
    simp [init_workers]
    intro i h1 h2
    omega
  | succ k ih =>
    intro n st
    cases hp : env.pipe n with
    | none =>
      simp only [init_workers, hp]
      exact ⟨fun _ => ⟨n, le_refl n, by omega, Or.inl hp⟩, fun _ => by decide⟩
    | some rw =>
      obtain ⟨r, w⟩ := rw
      cases he : env.epoll_create_n n with
      | none =>
        simp only [init_workers, hp, he]
        exact ⟨fun _ => ⟨n, le_refl n, by omega, Or.inr he⟩, fun _ => by decide⟩
      | some e =>
        simp only [init_workers, hp, he]
        rw [ih]
        constructor
        · rintro ⟨i, h1, h2, h3⟩
          exact ⟨i, by omega, by omega, h3⟩
        · rintro ⟨i, h1, h2, h3⟩
          have hne : i ≠ n := by
            rintro rfl
            rcases h3 with h3 | h3
            · rw [hp] at h3; cases h3
            · rw [he] at h3; cases h3
          exact ⟨i, by omega, by omega, h3⟩

/-- The function `tcpsrv_init` returns a null pointer exactly when one of its
allocations or acquisitions fails. -/
theorem tcpsrv_init_null_iff (c : Consts) (p : tcpsrv_init_t) (env : init_env) :
    (tcpsrv_init c p env).t = none ↔
      (env.calloc_t = false ∨ env.calloc_slots = false ∨ env.calloc_th = false ∨
        env.signalfd = none ∨ env.epoll_create = none ∨ env.calloc_tc = false ∨
        ∃ i, i < p.nthread.toNat ∧ (env.pipe i = none ∨ env.epoll_create_n i = none)) := by
  unfold tcpsrv_init
  cases h0 : env.calloc_t
  · simp
  simp only [Bool.not_true, Bool.false_eq_true, if_false, false_or]
  have key : (init_body p env
      { slots := false, th := false, signal_fd := 0, epoll_fd := 0, tc := none,
        held := [Res.mem_t], log := [] }).2 < 0 ↔
      (env.calloc_slots = false ∨ env.calloc_th = false ∨
        env.signalfd = none ∨ env.epoll_create = none ∨ env.calloc_tc = false ∨
        ∃ i, i < p.nthread.toNat ∧ (env.pipe i = none ∨ env.epoll_create_n i = none)) := by
    unfold init_body
    cases h1 : env.calloc_slots
    · simp
    cases h2 : env.calloc_th
    · simp
    cases h3 : env.signalfd with
    | none => simp
    | some sfd =>
      cases h4 : env.epoll_create with
      | none => simp
      | some ep =>
        cases h5 : env.calloc_tc
        · simp
        · simp only [Bool.not_true, Bool.false_eq_true, if_false, false_or, reduceCtorEq]
          rw [init_workers_rc]
          simp
  split_ifs with hrc
  · exact ⟨fun _ => Or.inr (key.mp hrc), fun _ => rfl⟩
  · exact ⟨fun h => by simp at h, fun h => absurd (key.mpr (h.resolve_left (by simp))) hrc⟩

/-! # The claims of the specification -/

/-- Claim C1, amended: for every worker count `nthread ≥ 1` and every accepted handle
`0 ≤ fd ≤ maxfd` for which `on_accept` is absent or requests neither close nor exit,
when the registration call succeeds `accept_client` increments the accept counter by
exactly one and registers `fd` on the epoll instance of exactly one worker, the one
of index `fd mod nthread` (a valid index), with read interest iff the read-poll bit
is set in the flags and write interest iff the write-poll bit is set (read only when
no `on_accept` is supplied, the flag masks being distinct bits); that call is the
only registration call made and no other registration changes. -/
theorem accept_client_registers (c : Consts) (t : tcpsrv_t) (fd : Nat) (io : Int)
    (hn : 1 ≤ t.p.nthread) (hfd : (fd : Int) ≤ t.p.maxfd)
    (hreq : ∀ cb, t.p.on_accept = some cb →
      cb io (fd_slot t fd) fd c.TCPSRV_POLL_READ &&& c.TCPSRV_DO_CLOSE = 0 ∧
      cb io (fd_slot t fd) fd c.TCPSRV_POLL_READ &&& c.TCPSRV_DO_EXIT = 0) :
    let F := match t.p.on_accept with
      | some cb => cb io (fd_slot t fd) fd c.TCPSRV_POLL_READ
      | none => c.TCPSRV_POLL_READ
    let k := (fd : Int) % t.p.nthread
    let t' := accept_client c t { fd := some fd, io := io, epoll_ok := true }
    t'.num_accepts = t.num_accepts + 1 ∧
    (0 ≤ k ∧ k < t.p.nthread) ∧
    t'.epoll (Mux.worker k) fd = some (poll_events c F) ∧
    (poll_events c F &&& EPOLLIN ≠ 0 ↔ F &&& c.TCPSRV_POLL_READ ≠ 0) ∧
    (poll_events c F &&& EPOLLOUT ≠ 0 ↔ F &&& c.TCPSRV_POLL_WRITE ≠ 0) ∧
    poll_events c F &&& (EPOLLIN ||| EPOLLOUT) = poll_events c F ∧
    (∀ ep f, ¬ (ep = Mux.worker k ∧ f = (fd : Int)) → t'.epoll ep f = t.epoll ep f) ∧
    t'.log = t.log
      ++ (match t.p.on_accept with
          | some _ => [Effect.on_accept (fd_slot t fd) fd c.TCPSRV_POLL_READ]
          | none => [])
      ++ [Effect.epoll_add (Mux.worker k) (poll_events c F) fd true] ∧
    (t.p.on_accept = none → c.distinct_bits → poll_events c F = EPOLLIN) := by
  intro F k t'
  obtain ⟨hk, hk0, hk1⟩ := tmod_index fd t.p.nthread hn
  obtain ⟨hb1, hb2, hb3⟩ := poll_events_bits c F
  have hd : t.p.on_accept = none → c.distinct_bits → poll_events c F = EPOLLIN := by
    intro hcb hd
    obtain ⟨h1, h2⟩ := distinct_bits_poll c hd
    simp [F, hcb, poll_events, h1, h2, EPOLLIN]
  refine ⟨?_, ⟨hk0, hk1⟩, ?_, hb1, hb2, hb3, ?_, ?_, hd⟩
  all_goals
    cases hcb : t.p.on_accept with
    | none =>
      have ht' : t' = _ := accept_client_nocb c t fd io true hfd hcb
      simp [ht', F, hcb, handoff, add_epoll, hk, k]
      try (intro ep f h h1 h2; exact absurd h2 (h h1))
    | some cb =>
      obtain ⟨hC, hE⟩ := hreq cb hcb
      have ht' : t' = _ := accept_client_cb c t fd io true cb hfd hcb
      simp [ht', F, hcb, accept_cb_body, land_lor_eq_zero, hC, hE, handoff, add_epoll, hk, k]
      try (intro ep f h h1 h2; exact absurd h2 (h h1))

/-- Claim C1 on the scenario of 2 workers and `maxfd = 1024`: the handles 4 and 5 go
to the workers 0 and 1. -/
theorem accept_client_registers_witness :
    (1 ≤ (idle cfg2).p.nthread ∧ ((4 : Nat) : Int) ≤ (idle cfg2).p.maxfd ∧
      ((5 : Nat) : Int) ≤ (idle cfg2).p.maxfd) ∧
    (accept_client consts0 (idle cfg2)
      { fd := some 4, io := 0, epoll_ok := true }).epoll (Mux.worker 0) 4 = some EPOLLIN ∧
    (accept_client consts0 (idle cfg2)
      { fd := some 5, io := 0, epoll_ok := true }).epoll (Mux.worker 1) 5 = some EPOLLIN :=
  ⟨by decide,
   (accept_client_registers consts0 (idle cfg2) 4 0 (by decide) (by decide)
      (by intro cb h; simp [idle, cfg2] at h)).2.2.1,
   (accept_client_registers consts0 (idle cfg2) 5 0 (by decide) (by decide)
      (by intro cb h; simp [idle, cfg2] at h)).2.2.1⟩

/-- Claim C1 as stated fails: with 2 workers, `maxfd = 1024`, no `on_accept` and a
refused registration, the accepted handle 4 ends up registered on neither worker
(it is closed instead). -/
theorem accept_client_registers_counterexample :
    1 ≤ (idle cfg2).p.nthread ∧ ((4 : Nat) : Int) ≤ (idle cfg2).p.maxfd ∧
    (idle cfg2).p.on_accept = none ∧
    (accept_client consts0 (idle cfg2)
      { fd := some 4, io := 0, epoll_ok := false }).epoll (Mux.worker 0) 4 = none ∧
    (accept_client consts0 (idle cfg2)
      { fd := some 4, io := 0, epoll_ok := false }).epoll (Mux.worker 1) 4 = none ∧
    (accept_client consts0 (idle cfg2)
      { fd := some 4, io := 0, epoll_ok := false }).log
        = [Effect.epoll_add (Mux.worker 0) EPOLLIN 4 false, Effect.close 4] := by
  refine ⟨by decide, by decide, rfl, by decide, by decide, by decide⟩

/-- Claim C2: for every accepted handle `fd > maxfd`, `accept_client` increments the
overload counter by exactly one, closes the connection, leaves the accept counter
and the shutdown flag unchanged, invokes no callback and computes no slot record
(its only effect is the `close`), and leaves `fd` registered on no epoll instance,
all other registrations being untouched. -/
theorem accept_client_overload (c : Consts) (t : tcpsrv_t) (fd : Nat) (io : Int)
    (ok : Bool) (h : (fd : Int) > t.p.maxfd) :
    let t' := accept_client c t { fd := some fd, io := io, epoll_ok := ok }
    t'.num_overloads = t.num_overloads + 1 ∧
    t'.num_accepts = t.num_accepts ∧
    t'.shutdown = t.shutdown ∧
    t'.log = t.log ++ [Effect.close fd] ∧
    (∀ ep, t'.epoll ep fd = none) ∧
    (∀ ep f, f ≠ (fd : Int) → t'.epoll ep f = t.epoll ep f) := by
  simp [accept_client, h, close_fd]
  intro ep f hf
  simp [hf]

/-- Claim C2 on the scenario `maxfd = 1024`, handle 2000, overload counter 0. -/
theorem accept_client_overload_witness :
    ((2000 : Nat) : Int) > (idle cfg2).p.maxfd ∧
    (idle cfg2).num_overloads = 0 ∧
    (accept_client consts0 (idle cfg2)
      { fd := some 2000, io := 0, epoll_ok := true }).num_overloads = 1 ∧
    (accept_client consts0 (idle cfg2)
      { fd := some 2000, io := 0, epoll_ok := true }).log = [Effect.close 2000] :=
  ⟨by decide, rfl,
   (accept_client_overload consts0 (idle cfg2) 2000 0 true (by decide)).1,
   (accept_client_overload consts0 (idle cfg2) 2000 0 true (by decide)).2.2.2.1⟩

/-- Claim C3: for every handle within range (`fd ≤ maxfd`) whose `on_accept` callback
leaves the flags `F`: if `F` requests close, `upon_close` (when supplied) is invoked
and then the handle is closed, and it is registered on no epoll instance; if `F`
requests exit, the shutdown flag is set; and whenever either request is set no
registration is made whatever the poll bits of `F` are (the effects of the call are
the callback calls and the `close` only, and every registration is either left as it
was or dropped). -/
theorem accept_client_close_exit (c : Consts) (t : tcpsrv_t) (fd : Nat) (io : Int)
    (ok : Bool) (cb : callback) (hfd : (fd : Int) ≤ t.p.maxfd)
    (hcb : t.p.on_accept = some cb) :
    let slot := fd_slot t fd
    let F := cb io slot fd c.TCPSRV_POLL_READ
    let t' := accept_client c t { fd := some fd, io := io, epoll_ok := ok }
    (F &&& c.TCPSRV_DO_CLOSE ≠ 0 →
      t'.log = t.log ++ [Effect.on_accept slot fd c.TCPSRV_POLL_READ]
                 ++ (if t.p.upon_close then [Effect.upon_close slot fd] else [])
                 ++ [Effect.close fd] ∧
      ∀ ep, t'.epoll ep fd = none) ∧
    (F &&& c.TCPSRV_DO_EXIT ≠ 0 → t'.shutdown = 1) ∧
    (F &&& c.TCPSRV_DO_CLOSE = 0 → F &&& c.TCPSRV_DO_EXIT ≠ 0 →
      t'.log = t.log ++ [Effect.on_accept slot fd c.TCPSRV_POLL_READ] ∧
      t'.epoll = t.epoll) ∧
    (F &&& c.TCPSRV_DO_CLOSE ≠ 0 ∨ F &&& c.TCPSRV_DO_EXIT ≠ 0 →
      ∀ ep f, t'.epoll ep f = t.epoll ep f ∨ t'.epoll ep f = none) := by
  intro slot F t'
  have ht' : t' = accept_cb_body c t fd ok F := accept_client_cb c t fd io ok cb hfd hcb
  rw [ht']
  by_cases hE : F &&& c.TCPSRV_DO_EXIT = 0 <;>
  by_cases hC : F &&& c.TCPSRV_DO_CLOSE = 0 <;>
  by_cases hU : t.p.upon_close = true <;>
  simp [accept_cb_body, hE, hC, hU, land_lor_eq_zero, close_fd, tcpsrv_t.emit, slot] <;>
  (intro ep f; by_cases hf : f = (fd : Int) <;> simp [hf])

/-- Claim C3 on a callback that requests both close and exit for handle 7. -/
theorem accept_client_close_exit_witness :
    (((7 : Nat) : Int) ≤ (idle { cfg2 with on_accept := some (cb_const 48) }).p.maxfd ∧
      (idle { cfg2 with on_accept := some (cb_const 48) }).p.on_accept
        = some (cb_const 48)) ∧
    (accept_client consts0 (idle { cfg2 with on_accept := some (cb_const 48) })
      { fd := some 7, io := 0, epoll_ok := true }).shutdown = 1 ∧
    (accept_client consts0 (idle { cfg2 with on_accept := some (cb_const 48) })
      { fd := some 7, io := 0, epoll_ok := true }).log
        = [Effect.on_accept 56 7 4, Effect.upon_close 56 7, Effect.close 7] :=
  ⟨⟨by decide, rfl⟩,
   (accept_client_close_exit consts0 (idle { cfg2 with on_accept := some (cb_const 48) })
      7 0 true (cb_const 48) (by decide) rfl).2.1 (by decide),
   ((accept_client_close_exit consts0 (idle { cfg2 with on_accept := some (cb_const 48) })
      7 0 true (cb_const 48) (by decide) rfl).1 (by decide)).1⟩

/-- Claim C4, amended: for every readiness event a worker receives on a connection
handle (the flag masks being distinct bits), `on_data` is invoked with the read
capability set iff the event is readable and the write capability set iff it is
writable, and with `F` the flags it leaves: if `F` requests close, `upon_close` (when
supplied) runs and then the handle is closed; if `F` requests exit, the shutdown
flag is set and the loop goes on; if `F` requests neither and has a poll bit, then,
when the update of the registration succeeds, the registered interest of the handle
becomes exactly read iff the read-poll bit and write iff the write-poll bit, and the
loop goes on; if `F` requests neither and has no poll bit, nothing is registered or
changed. -/
theorem worker_step_flags (c : Consts) (t : tcpsrv_t) (tc : tcpsrv_thread_t)
    (e : worker_ev) (hd : c.distinct_bits) (hfd : e.fd ≠ tc.pipe_fd0) :
    let slot := fd_slot t e.fd
    let fin := can_flags c e.events
    let F := (t.p.on_data.getD (drain c)) e.io slot e.fd fin
    let me := Mux.worker tc.thread_idx
    let r := worker_step c t tc e
    ((fin &&& c.TCPSRV_CAN_READ ≠ 0 ↔ e.events &&& EPOLLIN ≠ 0) ∧
     (fin &&& c.TCPSRV_CAN_WRITE ≠ 0 ↔ e.events &&& EPOLLOUT ≠ 0) ∧
     ∃ rest, r.1.log = t.log ++ Effect.on_data slot e.fd fin :: rest) ∧
    (F &&& c.TCPSRV_DO_CLOSE ≠ 0 →
      r.1.log = t.log ++ [Effect.on_data slot e.fd fin]
                  ++ (if t.p.upon_close then [Effect.upon_close slot e.fd] else [])
                  ++ [Effect.close e.fd] ∧
      (∀ ep, r.1.epoll ep e.fd = none) ∧ r.2 = true) ∧
    (F &&& c.TCPSRV_DO_EXIT ≠ 0 → r.1.shutdown = 1 ∧ r.2 = true) ∧
    (F &&& c.TCPSRV_DO_CLOSE = 0 → F &&& c.TCPSRV_DO_EXIT ≠ 0 →
      r.1.log = t.log ++ [Effect.on_data slot e.fd fin] ∧ r.1.epoll = t.epoll) ∧
    (F &&& c.TCPSRV_DO_CLOSE = 0 → F &&& c.TCPSRV_DO_EXIT = 0 →
      (F &&& c.TCPSRV_POLL_READ ≠ 0 ∨ F &&& c.TCPSRV_POLL_WRITE ≠ 0) →
      e.epoll_ok = true →
      r.1.epoll me e.fd = some (poll_events c F) ∧
      (poll_events c F &&& EPOLLIN ≠ 0 ↔ F &&& c.TCPSRV_POLL_READ ≠ 0) ∧
      (poll_events c F &&& EPOLLOUT ≠ 0 ↔ F &&& c.TCPSRV_POLL_WRITE ≠ 0) ∧
      poll_events c F &&& (EPOLLIN ||| EPOLLOUT) = poll_events c F ∧
      (∀ ep f, ¬ (ep = me ∧ f = e.fd) → r.1.epoll ep f = t.epoll ep f) ∧
      r.1.log = t.log ++ [Effect.on_data slot e.fd fin,
                          Effect.epoll_mod me (poll_events c F) e.fd true] ∧
      r.1.shutdown = t.shutdown ∧ r.2 = true) ∧
    (F &&& c.TCPSRV_DO_CLOSE = 0 → F &&& c.TCPSRV_DO_EXIT = 0 →
      F &&& c.TCPSRV_POLL_READ = 0 → F &&& c.TCPSRV_POLL_WRITE = 0 →
      r.1.epoll = t.epoll ∧ r.1.log = t.log ++ [Effect.on_data slot e.fd fin] ∧
      r.1.shutdown = t.shutdown ∧ r.2 = true) := by
  intro slot fin F me r
  have hr : r = worker_conn_body c t tc e F := worker_step_conn c t tc e hfd
  obtain ⟨hb1, hb2, hb3⟩ := poll_events_bits c F
  obtain ⟨hc1, hc2⟩ := can_flags_bits c hd e.events
  rw [hr]
  refine ⟨⟨hc1, hc2, ?_⟩, ?_, ?_, ?_, ?_, ?_⟩
  · by_cases hE : F &&& c.TCPSRV_DO_EXIT = 0 <;>
    by_cases hC : F &&& c.TCPSRV_DO_CLOSE = 0 <;>
    by_cases hP : F &&& (c.TCPSRV_POLL_READ ||| c.TCPSRV_POLL_WRITE) = 0 <;>
    by_cases hU : t.p.upon_close = true <;>
    cases hok : e.epoll_ok <;>
    simp [worker_conn_body, hE, hC, hP, hU, hok, land_lor_eq_zero, close_fd, tcpsrv_t.emit,
      mod_epoll, slot, fin]
  · intro hC
    by_cases hE : F &&& c.TCPSRV_DO_EXIT = 0 <;>
    by_cases hU : t.p.upon_close = true <;>
    simp [worker_conn_body, hE, hC, hU, land_lor_eq_zero, close_fd, tcpsrv_t.emit, slot, fin]
  · intro hE
    by_cases hC : F &&& c.TCPSRV_DO_CLOSE = 0 <;>
    by_cases hU : t.p.upon_close = true <;>
    simp [worker_conn_body, hE, hC, hU, land_lor_eq_zero, close_fd, tcpsrv_t.emit]
  · intro hC hE
    simp [worker_conn_body, hE, hC, land_lor_eq_zero, tcpsrv_t.emit, slot, fin]
  · intro hC hE hP hok
    have hP' : ¬ (F &&& c.TCPSRV_POLL_READ = 0 ∧ F &&& c.TCPSRV_POLL_WRITE = 0) := by tauto
    refine ⟨?_, hb1, hb2, hb3, ?_, ?_, ?_, ?_⟩ <;>
    simp [worker_conn_body, hE, hC, hP', hok, land_lor_eq_zero, tcpsrv_t.emit, mod_epoll,
      slot, fin, me]
    intro ep f h h1 h2
    exact absurd h2 (h h1)
  · intro hC hE hR hW
    simp [worker_conn_body, hE, hC, hR, hW, land_lor_eq_zero, tcpsrv_t.emit, slot, fin]

/-- Claim C4 on a readable event for handle 9 whose `on_data` asks for write interest. -/
theorem worker_step_flags_witness :
    (consts0.distinct_bits ∧ (9 : Int) ≠ tc1.pipe_fd0) ∧
    (worker_step consts0 serving tc1
      { fd := 9, events := EPOLLIN, rd := none, io := 0, epoll_ok := true }).1.epoll
        (Mux.worker 1) 9 = some EPOLLOUT :=
  ⟨by decide,
   ((worker_step_flags consts0 serving tc1
      { fd := 9, events := EPOLLIN, rd := none, io := 0, epoll_ok := true }
      (by decide) (by decide)).2.2.2.2.1 (by decide) (by decide) (by decide) rfl).1⟩

/-- Claim C4 as stated fails: handle 9 is registered with read interest, `on_data`
asks for write interest and requests neither close nor exit, the update of the
registration is refused; the registered interest is still read and the worker
leaves its loop. -/
theorem worker_step_flags_counterexample :
    serving.epoll (Mux.worker 1) 9 = some EPOLLIN ∧
    (worker_step consts0 serving tc1
      { fd := 9, events := EPOLLIN, rd := none, io := 0, epoll_ok := false }).1.epoll
        (Mux.worker 1) 9 = some EPOLLIN ∧
    (worker_step consts0 serving tc1
      { fd := 9, events := EPOLLIN, rd := none, io := 0, epoll_ok := false }).2 = false ∧
    (worker_step consts0 serving tc1
      { fd := 9, events := EPOLLIN, rd := none, io := 0, epoll_ok := false }).1.log
        = [Effect.epoll_add (Mux.worker 1) EPOLLIN 9 true,
           Effect.on_data 72 9 consts0.TCPSRV_CAN_READ,
           Effect.epoll_mod (Mux.worker 1) EPOLLOUT 9 false] := by
  refine ⟨by decide, by decide, by decide, by decide⟩

/-- Claim C5, amended: when an `upon_close` callback is supplied, then on every path
on which the framework closes a connection handle because a callback requested it
(`on_accept` in the main thread for a handle `≤ maxfd`, `on_data` in a worker),
`upon_close` is called exactly once for that handle, immediately before the handle
is closed. -/
theorem upon_close_before_close (c : Consts) (t : tcpsrv_t)
    (hup : t.p.upon_close = true) :
    (∀ (fd : Nat) (io : Int) (ok : Bool) (cb : callback),
      (fd : Int) ≤ t.p.maxfd → t.p.on_accept = some cb →
      cb io (fd_slot t fd) fd c.TCPSRV_POLL_READ &&& c.TCPSRV_DO_CLOSE ≠ 0 →
      (accept_client c t { fd := some fd, io := io, epoll_ok := ok }).log
        = t.log ++ [Effect.on_accept (fd_slot t fd) fd c.TCPSRV_POLL_READ,
                    Effect.upon_close (fd_slot t fd) fd, Effect.close fd]) ∧
    (∀ (tc : tcpsrv_thread_t) (e : worker_ev), e.fd ≠ tc.pipe_fd0 →
      (t.p.on_data.getD (drain c)) e.io (fd_slot t e.fd) e.fd (can_flags c e.events)
        &&& c.TCPSRV_DO_CLOSE ≠ 0 →
      (worker_step c t tc e).1.log
        = t.log ++ [Effect.on_data (fd_slot t e.fd) e.fd (can_flags c e.events),
                    Effect.upon_close (fd_slot t e.fd) e.fd, Effect.close e.fd]) := by
  constructor
  · intro fd io ok cb hfd hcb hC
    rw [accept_client_cb c t fd io ok cb hfd hcb]
    generalize cb io (fd_slot t fd) fd c.TCPSRV_POLL_READ = F at hC
    by_cases hE : F &&& c.TCPSRV_DO_EXIT = 0 <;>
    simp [accept_cb_body, hE, hC, hup, land_lor_eq_zero, close_fd, tcpsrv_t.emit]
  · intro tc e hfd hC
    rw [worker_step_conn c t tc e hfd]
    generalize (t.p.on_data.getD (drain c)) e.io (fd_slot t e.fd) e.fd (can_flags c e.events)
      = F at hC
    by_cases hE : F &&& c.TCPSRV_DO_EXIT = 0 <;>
    simp [worker_conn_body, hE, hC, hup, land_lor_eq_zero, close_fd, tcpsrv_t.emit]

/-- Claim C5 on an `on_accept` callback that requests close for handle 5. -/
theorem upon_close_before_close_witness :
    (idle { cfg2 with on_accept := some (cb_const 16) }).p.upon_close = true ∧
    (accept_client consts0 (idle { cfg2 with on_accept := some (cb_const 16) })
      { fd := some 5, io := 0, epoll_ok := true }).log
        = [Effect.on_accept 40 5 4, Effect.upon_close 40 5, Effect.close 5] :=
  ⟨rfl,
   (upon_close_before_close consts0 (idle { cfg2 with on_accept := some (cb_const 16) })
      rfl).1 5 0 true (cb_const 16) (by decide) rfl (by decide)⟩

/-- Claim C5 as stated fails on the path of a refused handoff registration:
`upon_close` is supplied, handle 5 is accepted (`5 ≤ maxfd`), `on_accept` requests
neither close nor exit, the registration is refused; the handle is closed and
`upon_close` is not called. -/
theorem upon_close_before_close_counterexample :
    (idle { cfg2 with on_accept := some (cb_const 4) }).p.upon_close = true ∧
    ((5 : Nat) : Int) ≤ (idle { cfg2 with on_accept := some (cb_const 4) }).p.maxfd ∧
    (accept_client consts0 (idle { cfg2 with on_accept := some (cb_const 4) })
      { fd := some 5, io := 0, epoll_ok := false }).log
        = [Effect.on_accept 40 5 4, Effect.epoll_add (Mux.worker 1) EPOLLIN 5 false,
           Effect.close 5] ∧
    Effect.upon_close 40 5 ∉
      (accept_client consts0 (idle { cfg2 with on_accept := some (cb_const 4) })
        { fd := some 5, io := 0, epoll_ok := false }).log := by
  refine ⟨rfl, by decide, by decide, by decide⟩

/-- Claim C6, amended: (a) whenever registering an accepted connection on the chosen
worker's epoll instance fails, `accept_client` closes that connection and sets the
shutdown flag; (b) whenever a worker's read of the one-byte control opcode is short
or fails, that worker's loop terminates: no later event is handled and the state,
the shutdown flag included, is left as it was. -/
theorem fatal_during_run (c : Consts) (t : tcpsrv_t) :
    (∀ (fd : Nat) (io : Int), 1 ≤ t.p.nthread → (fd : Int) ≤ t.p.maxfd →
      (∀ cb, t.p.on_accept = some cb →
        cb io (fd_slot t fd) fd c.TCPSRV_POLL_READ &&& c.TCPSRV_DO_CLOSE = 0 ∧
        cb io (fd_slot t fd) fd c.TCPSRV_POLL_READ &&& c.TCPSRV_DO_EXIT = 0) →
      (accept_client c t { fd := some fd, io := io, epoll_ok := false }).shutdown = 1 ∧
      (∀ ep, (accept_client c t { fd := some fd, io := io, epoll_ok := false }).epoll ep fd
        = none) ∧
      ∃ ev pre,
        (accept_client c t { fd := some fd, io := io, epoll_ok := false }).log
          = t.log ++ pre ++ [Effect.epoll_add (Mux.worker ((fd : Int) % t.p.nthread)) ev fd false,
                             Effect.close fd]) ∧
    (∀ (tc : tcpsrv_thread_t) (e : worker_ev) (es : List worker_ev),
      e.fd = tc.pipe_fd0 → e.rd = none → worker_loop c t tc (e :: es) = t) := by
  constructor
  · intro fd io hn hfd hreq
    obtain ⟨hk, -, -⟩ := tmod_index fd t.p.nthread hn
    cases hcb : t.p.on_accept with
    | none =>
      rw [accept_client_nocb c t fd io false hfd hcb]
      refine ⟨by simp [handoff, add_epoll, close_fd], by simp [handoff, add_epoll, close_fd],
        poll_events c c.TCPSRV_POLL_READ, [], ?_⟩
      simp [handoff, add_epoll, close_fd, tcpsrv_t.emit, hk]
    | some cb =>
      obtain ⟨hC, hE⟩ := hreq cb hcb
      rw [accept_client_cb c t fd io false cb hfd hcb]
      refine ⟨?_, ?_, poll_events c (cb io (fd_slot t fd) fd c.TCPSRV_POLL_READ),
        [Effect.on_accept (fd_slot t fd) fd c.TCPSRV_POLL_READ], ?_⟩ <;>
      simp [accept_cb_body, hC, hE, land_lor_eq_zero, handoff, add_epoll, close_fd,
        tcpsrv_t.emit, hk]
  · intro tc e es hfd hrd
    simp [worker_loop, worker_step, hfd, hrd]

/-- Claim C6 on handle 6 when the registration is refused, and on a worker whose read
of the control opcode fails. -/
theorem fatal_during_run_witness :
    (1 ≤ (idle cfg2).p.nthread ∧ ((6 : Nat) : Int) ≤ (idle cfg2).p.maxfd) ∧
    (accept_client consts0 (idle cfg2)
      { fd := some 6, io := 0, epoll_ok := false }).shutdown = 1 ∧
    worker_loop consts0 (idle cfg2) tc1
      [{ fd := 8, events := EPOLLIN, rd := none, io := 0, epoll_ok := true },
       { fd := 9, events := EPOLLIN, rd := none, io := 0, epoll_ok := true }]
      = idle cfg2 :=
  ⟨by decide,
   ((fatal_during_run consts0 (idle cfg2)).1 6 0 (by decide) (by decide)
      (by intro cb h; simp [idle, cfg2] at h)).1,
   (fatal_during_run consts0 (idle cfg2)).2 tc1
      { fd := 8, events := EPOLLIN, rd := none, io := 0, epoll_ok := true }
      [{ fd := 9, events := EPOLLIN, rd := none, io := 0, epoll_ok := true }] rfl rfl⟩

/-- Claim C6 as stated fails in its part (b): a failed read of the control opcode
ends the worker's loop (the next event is not handled) and the shutdown flag, clear
before, is still clear. -/
theorem fatal_during_run_counterexample :
    (idle cfg2).shutdown = 0 ∧
    (worker_loop consts0 (idle cfg2) tc1
      [{ fd := tc1.pipe_fd0, events := EPOLLIN, rd := none, io := 0, epoll_ok := true },
       { fd := 9, events := EPOLLIN, rd := none, io := 0, epoll_ok := true }]).shutdown = 0 ∧
    (worker_loop consts0 (idle cfg2) tc1
      [{ fd := tc1.pipe_fd0, events := EPOLLIN, rd := none, io := 0, epoll_ok := true },
       { fd := 9, events := EPOLLIN, rd := none, io := 0, epoll_ok := true }]).log = [] := by
  refine ⟨rfl, by decide, by decide⟩

/-- Claim C7: no step of the main loop or of a worker clears the shutdown flag (after
a step it has its old value or the value 1, and a broadcast leaves it alone); a
received signal other than the alarm sets it; and for every event handled by the
main loop of `tcpsrv_run` after which the flag is set, `tcpsrv_run` writes exactly
one `WORKER_SHUTDOWN` opcode to the control pipe of each of the `nthread` workers
(the broadcast is the last thing it does, and over the whole call each worker is
sent that opcode once, the two opcodes being different), handles no further event
and returns 0. -/
theorem shutdown_broadcast (c : Consts) (t : tcpsrv_t) (i : run_in)
    (pre : List main_ev) (e : main_ev) (rest : List main_ev)
    (hsetup : (run_setup t i).2 = 0)
    (hev : i.events = pre ++ e :: rest)
    (hpre : ∀ k, k < pre.length →
      (List.foldl (main_step c) (run_setup t i).1 (pre.take (k + 1))).shutdown = 0)
    (hset : (main_step c (List.foldl (main_step c) (run_setup t i).1 pre) e).shutdown ≠ 0) :
    let s := main_step c (List.foldl (main_step c) (run_setup t i).1 pre) e
    (tcpsrv_run c t i).2 = 0 ∧
    (tcpsrv_run c t i).1.log = s.log ++ broadcast s.p.nthread c.WORKER_SHUTDOWN ∧
    (tcpsrv_run c t i).1.shutdown = s.shutdown ∧
    s.p.nthread = t.p.nthread ∧
    (∀ k, 0 ≤ k → k < t.p.nthread →
      sent (broadcast s.p.nthread c.WORKER_SHUTDOWN) k c.WORKER_SHUTDOWN = 1) ∧
    (c.WORKER_PING ≠ c.WORKER_SHUTDOWN → ∀ k, 0 ≤ k → k < t.p.nthread →
      sent (tcpsrv_run c t i).1.log k c.WORKER_SHUTDOWN
        = sent t.log k c.WORKER_SHUTDOWN + 1) ∧
    (∀ (u : tcpsrv_t) (ev : main_ev),
      (main_step c u ev).shutdown = u.shutdown ∨ (main_step c u ev).shutdown = 1) ∧
    (∀ (u : tcpsrv_t) (tc : tcpsrv_thread_t) (ev : worker_ev),
      (worker_step c u tc ev).1.shutdown = u.shutdown ∨
      (worker_step c u tc ev).1.shutdown = 1) ∧
    (∀ (u : tcpsrv_t) (op : Nat), (send_workers u op).shutdown = u.shutdown) ∧
    (∀ (u : tcpsrv_t) (signo : Nat), signo ≠ SIGALRM →
      (handle_signal c u { siginfo := some signo }).shutdown = 1) := by
  intro s
  have hrun : tcpsrv_run c t i = (send_workers s c.WORKER_SHUTDOWN, 0) := by
    simp only [tcpsrv_run, hsetup, hev]
    rw [if_neg (by simp), run_loop_append c pre _ _ hpre]
    simp only [run_loop]
    rw [if_pos hset]
  have hp : s.p.nthread = t.p.nthread := by
    have h1 : s.p = (run_setup t i).1.p := by
      have := main_steps_p c (pre ++ [e]) (run_setup t i).1
      simpa [List.foldl_append] using this
    rw [h1, (grows_run_setup t i).1.1]
  refine ⟨by rw [hrun], by rw [hrun, send_workers_eq], by rw [hrun, send_workers_eq], hp,
    fun k h0 h1 => sent_broadcast _ _ k h0 (by rw [hp]; exact h1), ?_, main_step_shutdown c,
    worker_step_shutdown c, fun u op => by rw [send_workers_eq], ?_⟩
  · intro hop k h0 h1
    have hs : sent s.log k c.WORKER_SHUTDOWN = sent t.log k c.WORKER_SHUTDOWN := by
      have := main_steps_sent c (pre ++ [e]) (run_setup t i).1 k c.WORKER_SHUTDOWN hop
      rw [run_setup_sent] at this
      simpa [List.foldl_append] using this
    have hb := sent_broadcast s.p.nthread c.WORKER_SHUTDOWN k h0 (by rw [hp]; exact h1)
    rw [hrun, send_workers_eq]
    simp only [sent] at hs hb ⊢
    rw [List.count_append, hs, hb]
  · intro u signo hs
    simp [handle_signal, hs]

/-- Claim C7 on a run in which an alarm and then a terminate signal arrive. -/
theorem shutdown_broadcast_witness :
    (run_setup (idle cfg2) run_sample).2 = 0 ∧
    (tcpsrv_run consts0 (idle cfg2) run_sample).2 = 0 ∧
    (tcpsrv_run consts0 (idle cfg2) run_sample).1.log
      = [Effect.epoll_add Mux.main EPOLLIN 3 true, Effect.epoll_add Mux.main EPOLLIN 4 true,
         Effect.thread_create 0, Effect.thread_create 1, Effect.alarm 1, Effect.alarm 1,
         Effect.pipe_write 0 consts0.WORKER_SHUTDOWN,
         Effect.pipe_write 1 consts0.WORKER_SHUTDOWN] ∧
    sent (tcpsrv_run consts0 (idle cfg2) run_sample).1.log 1 consts0.WORKER_SHUTDOWN = 1 :=
  ⟨by decide,
   (shutdown_broadcast consts0 (idle cfg2) run_sample
      [{ fd := 4, acc := { fd := none, io := 0, epoll_ok := true },
         sig := { siginfo := some SIGALRM } }]
      { fd := 4, acc := { fd := none, io := 0, epoll_ok := true },
        sig := { siginfo := some 15 } }
      [{ fd := 3, acc := { fd := some 7, io := 0, epoll_ok := true },
         sig := { siginfo := none } }]
      (by decide) rfl
      (by intro k hk
          have hk0 : k = 0 := by simpa using hk
          subst hk0
          decide)
      (by decide)).1,
   by decide, by decide⟩

/-- Claim C8: starting from a tick counter of 0, after `handle_signal` has processed
`n` consecutive alarm signals the tick counter is `n`, the shutdown flag is as it
was, and each of the `nthread` control pipes has been sent exactly `n / 10` more
`WORKER_PING` opcodes; the broadcast happens exactly on the ticks that are multiples
of 10. -/
theorem alarm_ticks (c : Consts) (t : tcpsrv_t) (n : Nat) (h0 : t.ticks = 0) :
    (alarms c t n).ticks = n ∧
    (alarms c t n).shutdown = t.shutdown ∧
    (∀ k, 0 ≤ k → k < t.p.nthread →
      sent (alarms c t n).log k c.WORKER_PING = sent t.log k c.WORKER_PING + n / 10) ∧
    (alarms c t (n + 1)).log
      = (alarms c t n).log
          ++ (if (n + 1) % 10 = 0 then broadcast t.p.nthread c.WORKER_PING else [])
          ++ [Effect.alarm 1] := by
  obtain ⟨h1, h2, h3⟩ := alarms_fields c t n
  have hstep : ∀ m : Nat, (alarms c t (m + 1)).log
      = (alarms c t m).log
          ++ (if (m + 1) % 10 = 0 then broadcast t.p.nthread c.WORKER_PING else [])
          ++ [Effect.alarm 1] := by
    intro m
    obtain ⟨g1, -, g3⟩ := alarms_fields c t m
    have hm : Int.tmod ((alarms c t m).ticks + 1) 10 = 0 ↔ (m + 1) % 10 = 0 := by
      rw [g1, h0, Int.tmod_eq_emod (by omega) (by omega)]
      omega
    simp only [alarms, handle_signal_alarm, g3]
    by_cases hq : (m + 1) % 10 = 0
    · simp [hq, hm.mpr hq]
    · simp [hq, mt hm.mp hq]
  refine ⟨by rw [h1, h0]; simp, h2, ?_, hstep n⟩
  intro k hk0 hk1
  induction n with
  | zero => simp [alarms]
  | succ m ih =>
    have ih' := ih (alarms_fields c t m).1 (alarms_fields c t m).2.1 (alarms_fields c t m).2.2
    rw [hstep m]
    by_cases hq : (m + 1) % 10 = 0
    · have hb := sent_broadcast t.p.nthread c.WORKER_PING k hk0 hk1
      simp only [sent] at ih' hb ⊢
      simp only [hq, if_true, List.count_append, ih', hb]
      simp
      omega
    · simp only [sent] at ih' ⊢
      simp only [hq, if_false, List.count_append, ih']
      simp
      omega

/-- Claim C8 on the scenario of ten consecutive alarms with two workers. -/
theorem alarm_ticks_witness :
    (idle cfg2).ticks = 0 ∧
    (alarms consts0 (idle cfg2) 10).ticks = 10 ∧
    sent (alarms consts0 (idle cfg2) 10).log 0 consts0.WORKER_PING = 1 ∧
    sent (alarms consts0 (idle cfg2) 10).log 1 consts0.WORKER_PING = 1 :=
  ⟨rfl, (alarm_ticks consts0 (idle cfg2) 10 rfl).1,
   (alarm_ticks consts0 (idle cfg2) 10 rfl).2.2.1 0 (by decide) (by decide),
   (alarm_ticks consts0 (idle cfg2) 10 rfl).2.2.1 1 (by decide) (by decide)⟩

/-- Claim C9, the code at a failing input: in a process whose descriptor 0 is closed
`signalfd` returns the handle 0; when the following `epoll_create` fails,
`tcpsrv_init` returns a null pointer and the handle 0 is still open (with the handle
3 in its place nothing is left open); likewise when everything succeeds up to the
`pipe` of worker 1, which fails: all the handles 1 .. 4 acquired in between are
closed, the handle 0 is not. -/
theorem tcpsrv_init_leaks_handle_zero :
    (tcpsrv_init consts0 cfg2 { env_ok with signalfd := some 0, epoll_create := none }).t.isNone
      = true ∧
    (tcpsrv_init consts0 cfg2 { env_ok with signalfd := some 0, epoll_create := none }).held
      = [Res.handle 0] ∧
    (tcpsrv_init consts0 cfg2 { env_ok with signalfd := some 3, epoll_create := none }).held
      = [] ∧
    (tcpsrv_init consts0 cfg2 env_stdin_closed).t.isNone = true ∧
    (tcpsrv_init consts0 cfg2 env_stdin_closed).held = [Res.handle 0] := by
  refine ⟨by decide, by decide, by decide, by decide, by decide⟩

end TcpSrv
